import Mathlib

/-! FUSE kernel directory operations (`kernel/dir.c`)

A shallow embedding of the directory-operation layer of the FUSE kernel
module: the attribute synchroniser (`change_attributes`, `fuse_init_inode`),
the per-verb entry points (`fuse_lookup`, `fuse_mknod`, ...), the directory
stream parser (`parse_dirfile`) and the dentry cache policy
(`fuse_dentry_revalidate`).

Conventions of the embedding:

* C integers are naturals or integers.  Status codes are `Int` (zero is
  success, negative values are errors).  Sizes, object ids, mode bits and
  stream positions are `Nat`; no computation of the file overflows for the
  inputs the kernel can supply (a directory chunk has at most `DIR_BUFSIZE`
  bytes), so positions are left unbounded.
* A byte is a `Nat`; a buffer is a `List Nat`.
* A pointer that may be `NULL` is an `Option`.
* `request_send` is the transport: the request goes to the trace
  `World.sent`, and the reply is an argument of the entry point.
* Declarations of `fuse.h` (record layouts, `offsetof` constants,
  `FUSE_ROOT_INO`) are not part of `dir.c`; they are parameters
  (`DirentLayout`, `FuseAbi`).
-/

namespace Fuse

/-! ## Host constants -/

/-- Host errno `ENOENT`. -/
def ENOENT : Int := 2
/-- Host errno `ENOMEM`. -/
def ENOMEM : Int := 12
/-- Host errno `EISDIR`. -/
def EISDIR : Int := 21
/-- Host errno `EPROTO`. -/
def EPROTO : Int := 71
/-- Host limit `NAME_MAX`, the longest file name. -/
def NAME_MAX : Nat := 255

/-! ## Directory stream parser -/

/-- The fields of `struct fuse_dirent` that precede the name. -/
structure fuse_dirent where
  ino : Nat
  namelen : Nat
  type : Nat
deriving DecidableEq, Repr

/-- The parts of `fuse.h` that `parse_dirfile` uses: `FUSE_NAME_OFFSET` (the
offset of `name` in `struct fuse_dirent`), `FUSE_DIRENT_SIZE` (the length of
the record a dirent starts) and the reading of the fixed fields out of the
`FUSE_NAME_OFFSET` bytes in front of the name. -/
structure DirentLayout where
  FUSE_NAME_OFFSET : Nat
  FUSE_DIRENT_SIZE : fuse_dirent → Nat
  header : List Nat → fuse_dirent

/-- A record layout is regular when the header is not empty and a record holds
at least its header and its name. -/
def DirentLayout.Regular (L : DirentLayout) : Prop :=
  0 < L.FUSE_NAME_OFFSET ∧ ∀ d, L.FUSE_NAME_OFFSET + d.namelen ≤ L.FUSE_DIRENT_SIZE d

/-- The arguments of one call of the `filldir` callback:
`filldir(dstbuf, name, namelen, offset, ino, type)`; `name` holds the
`namelen` bytes found at the pointer. -/
structure FilldirArgs where
  name : List Nat
  namelen : Nat
  offset : Nat
  ino : Nat
  type : Nat
deriving DecidableEq, Repr

/-- The `filldir` callback with its `dstbuf` of type `σ`: it returns the new
`dstbuf` and its `int` result (non-zero asks the parser to stop). -/
abbrev Filldir (σ : Type) := σ → FilldirArgs → σ × Int

/-- What `parse_dirfile` touches outside its buffer: `file->f_pos`, the
callback's `dstbuf`, and (ghost) the calls of `filldir` made so far. -/
structure DirFile (σ : Type) where
  f_pos : Nat
  dstbuf : σ
  calls : List FilldirArgs
deriving DecidableEq, Repr

/-- The `filldir` arguments `parse_dirfile` builds for the record at the start
of `buf` when the stream position is `f_pos`. -/
def direntArgs (L : DirentLayout) (buf : List Nat) (f_pos : Nat) : FilldirArgs :=
  let dirent := L.header (buf.take L.FUSE_NAME_OFFSET)
  { name := (buf.drop L.FUSE_NAME_OFFSET).take dirent.namelen
    namelen := dirent.namelen
    offset := f_pos
    ino := dirent.ino
    type := dirent.type }

/-- The loop of `parse_dirfile`; `fuel` bounds the number of iterations and
`none` means the bound was reached.  The result is the return value and the
final state. -/
def parse_dirfile {σ : Type} (L : DirentLayout) (filldir : Filldir σ) :
    Nat → List Nat → Nat → DirFile σ → Option (Int × DirFile σ)
  | 0, _, _, _ => none
  | fuel + 1, buf, nbytes, file =>
    if nbytes ≥ L.FUSE_NAME_OFFSET then
      let dirent := L.header (buf.take L.FUSE_NAME_OFFSET)
      let reclen := L.FUSE_DIRENT_SIZE dirent
      if dirent.namelen > NAME_MAX then
        some (-EPROTO, file)
      else if reclen > nbytes then
        some (0, file)
      else
        let args := direntArgs L buf file.f_pos
        let r := filldir file.dstbuf args
        if r.2 ≠ 0 then
          some (0, { file with dstbuf := r.1, calls := file.calls ++ [args] })
        else
          parse_dirfile L filldir fuel (buf.drop reclen) (nbytes - reclen)
            { f_pos := file.f_pos + reclen, dstbuf := r.1,
              calls := file.calls ++ [args] }
    else
      some (0, file)

/-- A concrete record layout for examples: `ino` in bytes 0-7 and `namelen` in
bytes 8-9 (little endian), `type` in byte 10, the name from byte 11, and
records padded to a multiple of `align` bytes. -/
def sampleLayout (align : Nat) : DirentLayout where
  FUSE_NAME_OFFSET := 11
  FUSE_DIRENT_SIZE := fun d => (11 + d.namelen + (align - 1)) / align * align
  header := fun h =>
    { ino := ((h.take 8).foldr (fun b acc => b + 256 * acc) 0)
      namelen := h.getD 8 0 + 256 * h.getD 9 0
      type := h.getD 10 0 }

/-- The byte stream made of the records `rs`, one after the other. -/
def stream : List (List Nat) → List Nat
  | [] => []
  | r :: rs => r ++ stream rs

/-- The fixed fields of the record that starts the buffer `buf`. -/
def headerOf (L : DirentLayout) (buf : List Nat) : fuse_dirent :=
  L.header (buf.take L.FUSE_NAME_OFFSET)

/-- A complete directory record: its name is not longer than `NAME_MAX` and it
occupies exactly `FUSE_DIRENT_SIZE` bytes. -/
def WellFormedRecord (L : DirentLayout) (r : List Nat) : Prop :=
  (headerOf L r).namelen ≤ NAME_MAX ∧
    r.length = L.FUSE_DIRENT_SIZE (headerOf L r)

instance (L : DirentLayout) (r : List Nat) : Decidable (WellFormedRecord L r) :=
  inferInstanceAs (Decidable (_ ∧ _))

/-- The `filldir` arguments of the records `rs` laid out from stream position
`pos`: each record is reported at the position where it starts. -/
def recordArgs (L : DirentLayout) : Nat → List (List Nat) → List FilldirArgs
  | _, [] => []
  | pos, r :: rs => direntArgs L r pos :: recordArgs L (pos + r.length) rs

/-- The `dstbuf` after the callback has been given the entries `as` in order. -/
def feed {σ : Type} (filldir : Filldir σ) : σ → List FilldirArgs → σ
  | d, [] => d
  | d, a :: as => feed filldir (filldir d a).1 as

/-- The callback, started with `dstbuf = d`, returns 0 (continue) for each of
the entries `as` given in order. -/
def Accepts {σ : Type} (filldir : Filldir σ) : σ → List FilldirArgs → Prop
  | _, [] => True
  | d, a :: as => (filldir d a).2 = 0 ∧ Accepts filldir (filldir d a).1 as

/-- A record of `sampleLayout align`: the fixed fields, the name, and zero
padding up to the record length. -/
def sampleRecord (align ino type : Nat) (name : List Nat) : List Nat :=
  let fields :=
    (List.range 8).map (fun i => ino / 256 ^ i % 256) ++
      [name.length % 256, name.length / 256 % 256, type % 256] ++ name
  fields ++
    List.replicate
      ((sampleLayout align).FUSE_DIRENT_SIZE
        { ino := ino, namelen := name.length, type := type } - fields.length) 0

/-- A callback that stores every entry and never asks to stop. -/
def collectAll : Filldir (List FilldirArgs) := fun dst a => (dst ++ [a], 0)

/-- A callback with room for `dst.1` more entries: it stores an entry while
there is room and asks to stop, storing nothing, when there is none. -/
def collectUpTo : Filldir (Nat × List FilldirArgs) := fun dst a =>
  if dst.1 = 0 then (dst, 1) else ((dst.1 - 1, dst.2 ++ [a]), 0)

/-! ## Attribute synchroniser -/

/-- Host mode bits: the mask of the file type and the types `dir.c` tests. -/
def S_IFMT : Nat := 0o170000
/-- Host mode bits of a regular file. -/
def S_IFREG : Nat := 0o100000
/-- Host mode bits of a directory. -/
def S_IFDIR : Nat := 0o040000
/-- Host mode bits of a symbolic link. -/
def S_IFLNK : Nat := 0o120000
/-- Host mode bits of a character device. -/
def S_IFCHR : Nat := 0o020000
/-- Host mode bits of a block device. -/
def S_IFBLK : Nat := 0o060000
/-- Host mode bits of a FIFO. -/
def S_IFIFO : Nat := 0o010000
/-- Host mode bits of a socket. -/
def S_IFSOCK : Nat := 0o140000

/-- Host test `S_ISREG(m)`. -/
def S_ISREG (m : Nat) : Prop := m &&& S_IFMT = S_IFREG
/-- Host test `S_ISDIR(m)`. -/
def S_ISDIR (m : Nat) : Prop := m &&& S_IFMT = S_IFDIR
/-- Host test `S_ISLNK(m)`. -/
def S_ISLNK (m : Nat) : Prop := m &&& S_IFMT = S_IFLNK

instance (m : Nat) : Decidable (S_ISREG m) := inferInstanceAs (Decidable (_ = _))
instance (m : Nat) : Decidable (S_ISDIR m) := inferInstanceAs (Decidable (_ = _))
instance (m : Nat) : Decidable (S_ISLNK m) := inferInstanceAs (Decidable (_ = _))

/-- Host test `S_ISCHR(m)`. -/
def S_ISCHR (m : Nat) : Prop := m &&& S_IFMT = S_IFCHR
/-- Host test `S_ISBLK(m)`. -/
def S_ISBLK (m : Nat) : Prop := m &&& S_IFMT = S_IFBLK
/-- Host test `S_ISFIFO(m)`. -/
def S_ISFIFO (m : Nat) : Prop := m &&& S_IFMT = S_IFIFO
/-- Host test `S_ISSOCK(m)`. -/
def S_ISSOCK (m : Nat) : Prop := m &&& S_IFMT = S_IFSOCK

instance (m : Nat) : Decidable (S_ISCHR m) := inferInstanceAs (Decidable (_ = _))
instance (m : Nat) : Decidable (S_ISBLK m) := inferInstanceAs (Decidable (_ = _))
instance (m : Nat) : Decidable (S_ISFIFO m) := inferInstanceAs (Decidable (_ = _))
instance (m : Nat) : Decidable (S_ISSOCK m) := inferInstanceAs (Decidable (_ = _))

/-- The attribute record `struct fuse_attr` of a reply.  Its field types are
declared in `fuse.h`; they are taken to fit the inode fields they are copied
to, so that no assignment truncates. -/
structure fuse_attr where
  mode : Nat
  nlink : Nat
  uid : Nat
  gid : Nat
  rdev : Nat
  size : Nat
  blksize : Nat
  blocks : Nat
  atime : Nat
  mtime : Nat
  ctime : Nat
deriving DecidableEq, Repr

/-- The tables an `i_op` pointer can name: the host default of a new inode and
the four static tables of `dir.c`. -/
inductive InodeOps where
  | empty_iops
  | fuse_dir_inode_operations
  | fuse_file_inode_operations
  | fuse_symlink_inode_operations
  | fuse_special_inode_operations
deriving DecidableEq, Repr

/-- The tables an `i_fop` pointer can name: the host default of a new inode,
the two static tables of `dir.c`, and the four host tables that
`init_special_inode` installs. -/
inductive FileOps where
  | empty_fops
  | fuse_dir_operations
  | fuse_file_operations
  | def_chr_fops
  | def_blk_fops
  | def_fifo_fops
  | bad_sock_fops
deriving DecidableEq, Repr

/-- The fields of the host `struct inode` that `dir.c` reads or writes.
`special_inits` is a ghost field: the `(mode, rdev)` arguments of the calls of
the host function `init_special_inode` made on this inode. -/
structure Inode where
  i_ino : Nat
  i_mode : Nat
  i_nlink : Nat
  i_uid : Nat
  i_gid : Nat
  i_size : Nat
  i_blksize : Nat
  i_blocks : Nat
  i_atime : Nat
  i_mtime : Nat
  i_ctime : Nat
  i_op : InodeOps
  i_fop : FileOps
  special_inits : List (Nat × Nat)
deriving DecidableEq, Repr

/-- The function `change_attributes` of `dir.c`. -/
def change_attributes (inode : Inode) (attr : fuse_attr) : Inode :=
  { inode with
    i_mode := attr.mode
    i_nlink := attr.nlink
    i_uid := attr.uid
    i_gid := attr.gid
    i_size := attr.size
    i_blksize := attr.blksize
    i_blocks := attr.blocks
    i_atime := attr.atime
    i_mtime := attr.mtime
    i_ctime := attr.ctime }

/-- Host function `init_special_inode(inode, mode, rdev)`, as the host kernel
defines it: it stores `mode` in `i_mode` and installs the file operations of
the device type, `def_chr_fops` for a character device, `def_blk_fops` for a
block device, `def_fifo_fops` for a FIFO and `bad_sock_fops` for a socket; for
any other mode it only logs a message and `i_fop` stays as it is.  The device
number it stores for a character or block device is not read by `dir.c`; it
is kept, with the mode, in the ghost record of the call. -/
def init_special_inode (inode : Inode) (mode rdev : Nat) : Inode :=
  let inode :=
    { inode with i_mode := mode, special_inits := inode.special_inits ++ [(mode, rdev)] }
  if S_ISCHR mode then { inode with i_fop := FileOps.def_chr_fops }
  else if S_ISBLK mode then { inode with i_fop := FileOps.def_blk_fops }
  else if S_ISFIFO mode then { inode with i_fop := FileOps.def_fifo_fops }
  else if S_ISSOCK mode then { inode with i_fop := FileOps.bad_sock_fops }
  else inode

/-- The function `fuse_init_inode` of `dir.c`. -/
def fuse_init_inode (inode : Inode) (attr : fuse_attr) : Inode :=
  let inode := change_attributes inode attr
  if S_ISREG inode.i_mode then
    { inode with i_op := InodeOps.fuse_file_inode_operations,
                 i_fop := FileOps.fuse_file_operations }
  else if S_ISDIR inode.i_mode then
    { inode with i_op := InodeOps.fuse_dir_inode_operations,
                 i_fop := FileOps.fuse_dir_operations }
  else if S_ISLNK inode.i_mode then
    { inode with i_op := InodeOps.fuse_symlink_inode_operations }
  else
    init_special_inode { inode with i_op := InodeOps.fuse_special_inode_operations }
      inode.i_mode attr.rdev

/-! ## Requests, replies and the kernel state -/

/-- The request codes of `enum fuse_opcode` that `dir.c` sends. -/
inductive fuse_opcode where
  | FUSE_LOOKUP
  | FUSE_GETATTR
  | FUSE_READLINK
  | FUSE_GETDIR
  | FUSE_MKNOD
  | FUSE_MKDIR
  | FUSE_SYMLINK
  | FUSE_UNLINK
  | FUSE_RMDIR
  | FUSE_RENAME
  | FUSE_LINK
deriving DecidableEq, Repr

/-- The constants of `fuse.h` used by the entry points: the id of the root,
the offsets of the trailing name arrays in the request records and the sizes
of the reply records. -/
structure FuseAbi where
  FUSE_ROOT_INO : Nat
  offsetof_mknod_name : Nat
  offsetof_mkdir_name : Nat
  offsetof_rename_names : Nat
  offsetof_link_name : Nat
  sizeof_lookup_out : Nat
  sizeof_mknod_out : Nat
  sizeof_getattr_out : Nat
  sizeof_getdir_out : Nat

/-- The object `in.arg` points to: nothing, a byte buffer, or one of the
request records of `fuse.h` with its fixed fields and the bytes of its
trailing array. -/
inductive InArg where
  | null
  | bytes (b : List Nat)
  | mknod_in (mode rdev : Int) (name : List Nat)
  | mkdir_in (mode : Int) (name : List Nat)
  | rename_in (newdir : Nat) (names : List Nat)
  | link_in (newdir : Nat) (name : List Nat)
deriving DecidableEq, Repr

/-- What one call of `request_send` is given: `in.h.opcode`, `in.h.ino`,
`in.argsize`, `in.arg`, and the reply capacity `out.argsize`, `out.argvar`.
The defaults are those of `FUSE_IN_INIT` and `FUSE_OUT_INIT`. -/
structure Request where
  opcode : fuse_opcode
  ino : Nat
  argsize : Nat := 0
  arg : InArg := InArg.null
  out_argsize : Nat := 0
  out_argvar : Nat := 0
deriving DecidableEq, Repr

/-- The reply to a request: the status `out.h.error` and the reply record
written to `out.arg`. -/
structure Reply (α : Type) where
  error : Int
  arg : α

/-- Reply record of `FUSE_LOOKUP`. -/
structure fuse_lookup_out where
  ino : Nat
  attr : fuse_attr
deriving DecidableEq, Repr

/-- Reply record of `FUSE_MKNOD`. -/
structure fuse_mknod_out where
  ino : Nat
  attr : fuse_attr
deriving DecidableEq, Repr

/-- Reply record of `FUSE_GETATTR`. -/
structure fuse_getattr_out where
  attr : fuse_attr
deriving DecidableEq, Repr

/-- A container file: the mode of its inode
(`cfile->f_dentry->d_inode->i_mode`) and its bytes. -/
structure CFile where
  i_mode : Nat
  data : List Nat
deriving DecidableEq, Repr

/-- Reply record of `FUSE_GETDIR`: the container file, or `NULL`. -/
structure fuse_getdir_out where
  file : Option CFile
deriving DecidableEq, Repr

/-- The kernel state the entry points share: the inode cache of the super
block (the inode `iget` finds under each number), and two ghost traces, the
requests handed to `request_send` and the files given to `fput`. -/
structure World where
  inodes : Nat → Option Inode
  sent : List Request
  puts : List CFile

/-- The call `request_send(fc, &in, &out)`: the request is recorded; the reply
is supplied by the caller of the entry point. -/
def request_send (w : World) (req : Request) : World :=
  { w with sent := w.sent ++ [req] }

/-- Host default state of a newly allocated inode with number `ino`. -/
def new_inode (ino : Nat) : Inode :=
  { i_ino := ino, i_mode := 0, i_nlink := 1, i_uid := 0, i_gid := 0, i_size := 0,
    i_blksize := 0, i_blocks := 0, i_atime := 0, i_mtime := 0, i_ctime := 0,
    i_op := InodeOps.empty_iops, i_fop := FileOps.empty_fops, special_inits := [] }

/-- Host function `iget(sb, ino)`: the cached inode with that number, or a new
one; `NULL` when a new inode is needed and cannot be allocated. -/
def iget (w : World) (ino : Nat) (alloc_ok : Bool) : Option Inode :=
  match w.inodes ino with
  | some inode => some inode
  | none => if alloc_ok then some (new_inode ino) else none

/-- The inode cache after the inode found under `ino` has been changed in
place to `inode`. -/
def World.store (w : World) (ino : Nat) (inode : Inode) : World :=
  { w with inodes := fun n => if n = ino then some inode else w.inodes n }

/-- The host string descriptor `struct qstr`: the bytes stored at `name`, which
a NUL byte follows, and `len`. -/
structure qstr where
  name : List Nat
  len : Nat
deriving DecidableEq, Repr

/-- The only dentry table of `dir.c`. -/
inductive DentryOps where
  | fuse_dentry_opertations
deriving DecidableEq, Repr

/-- The fields of the host `struct dentry` used here.  `d_inode` names the
cached inode by its number; `hashed` says the entry is in the name cache. -/
structure Dentry where
  d_name : qstr
  d_inode : Option Nat
  d_op : Option DentryOps
  hashed : Bool
deriving DecidableEq, Repr

/-- Host function `d_instantiate(entry, inode)`. -/
def d_instantiate (entry : Dentry) (inode : Option Nat) : Dentry :=
  { entry with d_inode := inode }

/-- Host function `d_add(entry, inode)`: instantiate and enter the name
cache. -/
def d_add (entry : Dentry) (inode : Option Nat) : Dentry :=
  { d_instantiate entry inode with hashed := true }

/-- The value of a `struct dentry *` result: `NULL` or `ERR_PTR(e)`. -/
inductive DentryResult where
  | null
  | err_ptr (e : Int)
deriving DecidableEq, Repr

/-- The bytes of a C string: those in front of the first NUL. -/
def cstring (s : List Nat) : List Nat := s.takeWhile (fun b => b ≠ 0)

/-- Host function `strlen`. -/
def strlen (s : List Nat) : Nat := (cstring s).length

/-- Host function `kmalloc(size)`, when it succeeds: `size` bytes, shown as
zero until they are written. -/
def kmalloc (size : Nat) : List Nat := List.replicate size 0

/-- Host function `strcpy(buf + off, s)`: the string and its terminating NUL
are written from offset `off`.  A write past the end of `buf` shows as a
result longer than `buf`. -/
def strcpy (buf : List Nat) (off : Nat) (s : List Nat) : List Nat :=
  buf.take off ++ (cstring s ++ [0]) ++ buf.drop (off + strlen s + 1)

/-- The `argsize` bytes the transport reads at the pointer `d_name.name`. -/
def nameArg (n : qstr) : InArg := InArg.bytes ((n.name ++ [0]).take (n.len + 1))

/-! ## Entry points -/

/-- The function `fuse_lookup` of `dir.c`.  The result is the returned pointer,
the dentry and the kernel state after the call. -/
def fuse_lookup (abi : FuseAbi) (w : World) (dir : Inode) (entry : Dentry)
    (out : Reply fuse_lookup_out) (alloc_ok : Bool) : DentryResult × Dentry × World :=
  let w := request_send w
    { opcode := fuse_opcode.FUSE_LOOKUP, ino := dir.i_ino, argsize := entry.d_name.len + 1,
      arg := nameArg entry.d_name, out_argsize := abi.sizeof_lookup_out }
  if out.error = 0 then
    match iget w out.arg.ino alloc_ok with
    | none => (DentryResult.err_ptr (-ENOMEM), entry, w)
    | some inode =>
      (DentryResult.null,
        d_add { entry with d_op := some DentryOps.fuse_dentry_opertations } (some out.arg.ino),
        w.store out.arg.ino (fuse_init_inode inode out.arg.attr))
  else if out.error ≠ -ENOENT then
    (DentryResult.err_ptr out.error, entry, w)
  else
    (DentryResult.null,
      d_add { entry with d_op := some DentryOps.fuse_dentry_opertations } none, w)

/-- The function `fuse_mknod` of `dir.c`; `kmalloc_ok` says whether the
request buffer could be allocated. -/
def fuse_mknod (abi : FuseAbi) (w : World) (dir : Inode) (entry : Dentry) (mode rdev : Int)
    (kmalloc_ok : Bool) (out : Reply fuse_mknod_out) (alloc_ok : Bool) :
    Int × Dentry × World :=
  let insize := abi.offsetof_mknod_name + entry.d_name.len + 1
  if !kmalloc_ok then (-ENOMEM, entry, w)
  else
    let inarg := InArg.mknod_in mode rdev
      (strcpy (kmalloc (insize - abi.offsetof_mknod_name)) 0 entry.d_name.name)
    let w := request_send w
      { opcode := fuse_opcode.FUSE_MKNOD, ino := dir.i_ino, argsize := insize, arg := inarg,
        out_argsize := abi.sizeof_mknod_out }
    if out.error ≠ 0 then (out.error, entry, w)
    else
      match iget w out.arg.ino alloc_ok with
      | none => (-ENOMEM, entry, w)
      | some inode =>
        (0, d_instantiate entry (some out.arg.ino),
          w.store out.arg.ino (fuse_init_inode inode out.arg.attr))

/-- The function `fuse_create` of `dir.c`. -/
def fuse_create (abi : FuseAbi) (w : World) (dir : Inode) (entry : Dentry) (mode : Int)
    (kmalloc_ok : Bool) (out : Reply fuse_mknod_out) (alloc_ok : Bool) :
    Int × Dentry × World :=
  fuse_mknod abi w dir entry mode 0 kmalloc_ok out alloc_ok

/-- The function `fuse_mkdir` of `dir.c`. -/
def fuse_mkdir (abi : FuseAbi) (w : World) (dir : Inode) (entry : Dentry) (mode : Int)
    (kmalloc_ok : Bool) (out : Reply Unit) : Int × World :=
  let insize := abi.offsetof_mkdir_name + entry.d_name.len + 1
  if !kmalloc_ok then (-ENOMEM, w)
  else
    let inarg := InArg.mkdir_in mode
      (strcpy (kmalloc (insize - abi.offsetof_mkdir_name)) 0 entry.d_name.name)
    let w := request_send w
      { opcode := fuse_opcode.FUSE_MKDIR, ino := dir.i_ino, argsize := insize, arg := inarg }
    (out.error, w)

/-- The function `fuse_symlink` of `dir.c`; `link` is the target string. -/
def fuse_symlink (w : World) (dir : Inode) (entry : Dentry) (link : List Nat)
    (kmalloc_ok : Bool) (out : Reply Unit) : Int × World :=
  let insize := entry.d_name.len + 1 + strlen link + 1
  if !kmalloc_ok then (-ENOMEM, w)
  else
    let inarg := strcpy (kmalloc insize) 0 entry.d_name.name
    let inarg := strcpy inarg (entry.d_name.len + 1) link
    let w := request_send w
      { opcode := fuse_opcode.FUSE_SYMLINK, ino := dir.i_ino, argsize := insize,
        arg := InArg.bytes inarg }
    (out.error, w)

/-- The function `fuse_remove` of `dir.c`. -/
def fuse_remove (w : World) (dir : Inode) (entry : Dentry) (op : fuse_opcode)
    (out : Reply Unit) : Int × World :=
  let w := request_send w
    { opcode := op, ino := dir.i_ino, argsize := entry.d_name.len + 1,
      arg := nameArg entry.d_name }
  (out.error, w)

/-- The function `fuse_unlink` of `dir.c`. -/
def fuse_unlink (w : World) (dir : Inode) (entry : Dentry) (out : Reply Unit) : Int × World :=
  fuse_remove w dir entry fuse_opcode.FUSE_UNLINK out

/-- The function `fuse_rmdir` of `dir.c`. -/
def fuse_rmdir (w : World) (dir : Inode) (entry : Dentry) (out : Reply Unit) : Int × World :=
  fuse_remove w dir entry fuse_opcode.FUSE_RMDIR out

/-- The function `fuse_rename` of `dir.c`. -/
def fuse_rename (abi : FuseAbi) (w : World) (olddir : Inode) (oldent : Dentry)
    (newdir : Inode) (newent : Dentry) (kmalloc_ok : Bool) (out : Reply Unit) : Int × World :=
  let oldnamsize := oldent.d_name.len + 1
  let newnamsize := newent.d_name.len + 1
  let insize := abi.offsetof_rename_names + oldnamsize + newnamsize
  if !kmalloc_ok then (-ENOMEM, w)
  else
    let names := strcpy (kmalloc (insize - abi.offsetof_rename_names)) 0 oldent.d_name.name
    let names := strcpy names oldnamsize newent.d_name.name
    let w := request_send w
      { opcode := fuse_opcode.FUSE_RENAME, ino := olddir.i_ino, argsize := insize,
        arg := InArg.rename_in newdir.i_ino names }
    (out.error, w)

/-- The function `fuse_link` of `dir.c`; `inode` is the inode `entry->d_inode`
points to. -/
def fuse_link (abi : FuseAbi) (w : World) (inode : Inode) (newdir : Inode) (newent : Dentry)
    (kmalloc_ok : Bool) (out : Reply Unit) : Int × World :=
  let insize := abi.offsetof_link_name + newent.d_name.len + 1
  if !kmalloc_ok then (-ENOMEM, w)
  else
    let inarg := InArg.link_in newdir.i_ino
      (strcpy (kmalloc (insize - abi.offsetof_link_name)) 0 newent.d_name.name)
    let w := request_send w
      { opcode := fuse_opcode.FUSE_LINK, ino := inode.i_ino, argsize := insize, arg := inarg }
    (out.error, w)

/-- The function `fuse_revalidate` of `dir.c`; `inode` is the inode
`dentry->d_inode` points to, and the result holds its state after the call. -/
def fuse_revalidate (abi : FuseAbi) (w : World) (inode : Inode)
    (out : Reply fuse_getattr_out) : Int × Inode × World :=
  if inode.i_ino ≠ abi.FUSE_ROOT_INO then (0, inode, w)
  else
    let w := request_send w
      { opcode := fuse_opcode.FUSE_GETATTR, ino := inode.i_ino, out_argsize := abi.sizeof_getattr_out }
    if out.error = 0 then (out.error, change_attributes inode out.arg.attr, w)
    else (out.error, inode, w)

/-- Host constant `PAGE_SIZE`. -/
def PAGE_SIZE : Nat := 4096

/-- The function `read_link` of `dir.c`; `inode` is the inode `dentry->d_inode`
points to.  `page` is the result of `__get_free_page`: `none` when no page
could be allocated, otherwise the bytes the page holds when it is handed out,
which are arbitrary.  The reply record is the target: the transport writes it
to the start of the page and stores its length in `out.argsize`; `read_link`
then writes the NUL at index `out.argsize`.  The result is the return value
and the buffer stored in `*bufp`, if any. -/
def read_link (w : World) (inode : Inode) (page : Option (List Nat))
    (out : Reply (List Nat)) : Int × Option (List Nat) × World :=
  match page with
  | none => (-ENOMEM, none, w)
  | some page =>
    let w := request_send w
      { opcode := fuse_opcode.FUSE_READLINK, ino := inode.i_ino, out_argsize := PAGE_SIZE - 1,
        out_argvar := 1 }
    if out.error ≠ 0 then (out.error, none, w)
    else
      let page := out.arg ++ page.drop out.arg.length
      let out_argsize := out.arg.length
      (0, some (page.take out_argsize ++ [0] ++ page.drop (out_argsize + 1)), w)

/-- Host open flag `O_DIRECTORY`. -/
def O_DIRECTORY : Nat := 0o200000

/-- The fields of the host `struct file` of an open directory. -/
structure File where
  f_flags : Nat
  f_pos : Nat
  private_data : Option CFile
deriving DecidableEq, Repr

/-- The function `fuse_dir_open` of `dir.c`. -/
def fuse_dir_open (abi : FuseAbi) (w : World) (inode : Inode) (file : File)
    (out : Reply fuse_getdir_out) : Int × File × World :=
  if file.f_flags &&& O_DIRECTORY = 0 then (-EISDIR, file, w)
  else
    let w := request_send w
      { opcode := fuse_opcode.FUSE_GETDIR, ino := inode.i_ino, out_argsize := abi.sizeof_getdir_out }
    if out.error = 0 then
      match out.arg.file with
      | none => (-EPROTO, file, w)
      | some cfile =>
        if ¬ S_ISREG cfile.i_mode then
          (-EPROTO, file, { w with puts := w.puts ++ [cfile] })
        else
          (out.error, { file with private_data := some cfile }, w)
    else (out.error, file, w)

/-- Host lookup flag `LOOKUP_CONTINUE`: more path segments follow. -/
def LOOKUP_CONTINUE : Nat := 4

/-- The function `fuse_dentry_revalidate` of `dir.c`. -/
def fuse_dentry_revalidate (entry : Dentry) (flags : Nat) : Int :=
  if entry.d_inode = none ∨ flags &&& LOOKUP_CONTINUE = 0 then 0
  else 1

/-! ## Sequences of calls -/

/-- One call of an entry point that can initialise or refresh an inode, with
its arguments and the daemon's reply.  `revalidate` names the inode of its
dentry by its number in the cache. -/
inductive Call where
  | lookup (dir : Inode) (entry : Dentry) (out : Reply fuse_lookup_out) (alloc_ok : Bool)
  | mknod (dir : Inode) (entry : Dentry) (mode rdev : Int) (kmalloc_ok : Bool)
      (out : Reply fuse_mknod_out) (alloc_ok : Bool)
  | revalidate (ino : Nat) (out : Reply fuse_getattr_out)

/-- The kernel state after one call. -/
def step (abi : FuseAbi) (w : World) : Call → World
  | Call.lookup dir entry out alloc_ok => (fuse_lookup abi w dir entry out alloc_ok).2.2
  | Call.mknod dir entry mode rdev kmalloc_ok out alloc_ok =>
    (fuse_mknod abi w dir entry mode rdev kmalloc_ok out alloc_ok).2.2
  | Call.revalidate ino out =>
    match w.inodes ino with
    | none => w
    | some inode =>
      let r := fuse_revalidate abi w inode out
      r.2.2.store ino r.2.1

/-- The kernel state after a sequence of calls. -/
def run (abi : FuseAbi) (w : World) (calls : List Call) : World :=
  calls.foldl (step abi) w

/-- The call is a lookup or mknod whose reply has status 0 and names the
inode number `ino` with mode `mode`. -/
def Call.Names (ino mode : Nat) : Call → Prop
  | Call.lookup _ _ out _ => out.error = 0 ∧ out.arg.ino = ino ∧ out.arg.attr.mode = mode
  | Call.mknod _ _ _ _ _ out _ => out.error = 0 ∧ out.arg.ino = ino ∧ out.arg.attr.mode = mode
  | Call.revalidate _ _ => False

/-- Sample constants of `fuse.h` for examples. -/
def sampleAbi : FuseAbi :=
  { FUSE_ROOT_INO := 1, offsetof_mknod_name := 8, offsetof_mkdir_name := 4,
    offsetof_rename_names := 8, offsetof_link_name := 8, sizeof_lookup_out := 64,
    sizeof_mknod_out := 64, sizeof_getattr_out := 56, sizeof_getdir_out := 8 }

/-- An attribute record with the given mode, for examples. -/
def sampleAttr (mode : Nat) : fuse_attr :=
  { mode := mode, nlink := 1, uid := 1000, gid := 1000, rdev := 0, size := 5,
    blksize := 512, blocks := 1, atime := 10, mtime := 20, ctime := 30 }

/-- A kernel state with an empty inode cache and no request sent. -/
def emptyWorld : World := { inodes := fun _ => none, sent := [], puts := [] }

/-- A dentry not yet bound, for the name `name`. -/
def freshDentry (name : List Nat) : Dentry :=
  { d_name := { name := name, len := name.length }, d_inode := none, d_op := none,
    hashed := false }

/-- The tables of the inode cached under `n` are those of `i0` initialised
with `a0`. -/
def OpsKept (n : Nat) (i0 : Inode) (a0 : fuse_attr) (w : World) : Prop :=
  ∃ i, w.inodes n = some i ∧ i.i_op = (fuse_init_inode i0 a0).i_op ∧
    i.i_fop = (fuse_init_inode i0 a0).i_fop

/-! ## Further definitions: release, string fields, request counting, access log -/

/-- The function `fuse_dir_release` of `dir.c`.  The result `none` stands for
reaching `BUG()`; otherwise the container file is given to `fput` and 0 is
returned. -/
def fuse_dir_release (w : World) (file : File) : Option (Int × World) :=
  match file.private_data with
  | none => none
  | some cfile => some (0, { w with puts := w.puts ++ [cfile] })

/-- No byte of the string is NUL. -/
def NulFree (s : List Nat) : Prop := ∀ b ∈ s, b ≠ 0

instance (s : List Nat) : Decidable (NulFree s) :=
  inferInstanceAs (Decidable (∀ b ∈ s, b ≠ 0))

/-- The bytes `strcpy(buf + off, s)` writes lie inside `buf`. -/
def strcpyFits (buf : List Nat) (off : Nat) (s : List Nat) : Prop :=
  off + strlen s + 1 ≤ buf.length

instance (buf : List Nat) (off : Nat) (s : List Nat) : Decidable (strcpyFits buf off s) :=
  inferInstanceAs (Decidable (_ ≤ _))

/-- Reading of a two-field body as the receiver does it: the first field is
the bytes in front of the first NUL, the second field the bytes between that
NUL and the next one. -/
def splitAtNul (body : List Nat) : List Nat × List Nat :=
  (cstring body, cstring (body.drop (strlen body + 1)))

/-- Between the states `w` and `v` exactly one request was sent when `cond`
holds, and that request satisfies `P`; no request was sent when `cond` does
not hold. -/
def SendsOneIf (cond : Prop) (w v : World) (P : Request → Prop) : Prop :=
  (cond → ∃ r, v.sent = w.sent ++ [r] ∧ P r) ∧ (¬ cond → v.sent = w.sent)

/-- One access of `parse_dirfile` to its input, with offsets counted from the
start of the buffer: the header of a record is read (`FUSE_NAME_OFFSET` bytes
from `off`), a name is handed to `filldir` (`len` bytes from `off`), or
`reclen` is subtracted from the `nbytes` left. -/
inductive Access where
  | header (off : Nat)
  | name (off len : Nat)
  | advance (nbytes reclen : Nat)
deriving DecidableEq, Repr

/-- The loop of `parse_dirfile` with a ghost log of its accesses; `off` is the
distance of `buf` from the start of the buffer.  The log is returned also when
the fuel runs out. -/
def parse_dirfile_log {σ : Type} (L : DirentLayout) (filldir : Filldir σ) :
    Nat → Nat → List Nat → Nat → DirFile σ → List Access × Option (Int × DirFile σ)
  | 0, _, _, _, _ => ([], none)
  | fuel + 1, off, buf, nbytes, file =>
    if nbytes ≥ L.FUSE_NAME_OFFSET then
      let dirent := L.header (buf.take L.FUSE_NAME_OFFSET)
      let reclen := L.FUSE_DIRENT_SIZE dirent
      if dirent.namelen > NAME_MAX then
        ([Access.header off], some (-EPROTO, file))
      else if reclen > nbytes then
        ([Access.header off], some (0, file))
      else
        let args := direntArgs L buf file.f_pos
        let r := filldir file.dstbuf args
        if r.2 ≠ 0 then
          ([Access.header off, Access.name (off + L.FUSE_NAME_OFFSET) dirent.namelen],
            some (0, { file with dstbuf := r.1, calls := file.calls ++ [args] }))
        else
          let rest := parse_dirfile_log L filldir fuel (off + reclen) (buf.drop reclen)
            (nbytes - reclen)
            { f_pos := file.f_pos + reclen, dstbuf := r.1,
              calls := file.calls ++ [args] }
          (Access.header off :: Access.name (off + L.FUSE_NAME_OFFSET) dirent.namelen ::
            Access.advance nbytes reclen :: rest.1, rest.2)
    else
      ([], some (0, file))

/-- The record lengths subtracted in a log, in order. -/
def advances : List Access → List Nat
  | [] => []
  | Access.advance _ reclen :: rest => reclen :: advances rest
  | _ :: rest => advances rest

/-- Every logged access lies inside the first `bound` bytes of the buffer and
no logged subtraction takes more than is left. -/
def AccessesWithin (L : DirentLayout) (bound : Nat) (log : List Access) : Prop :=
  ∀ a ∈ log,
    match a with
    | Access.header off => off + L.FUSE_NAME_OFFSET ≤ bound
    | Access.name off len => off + len ≤ bound
    | Access.advance nbytes reclen => reclen ≤ nbytes

/-! ## The directory stream parser: lemmas and theorems -/

variable {σ : Type}

theorem stream_append (as bs : List (List Nat)) : stream (as ++ bs) = stream as ++ stream bs := by
  induction as with
  | nil => rfl
  | cons a as ih => simp [stream, ih]

theorem recordArgs_append (L : DirentLayout) (as bs : List (List Nat)) (pos : Nat) :
    recordArgs L pos (as ++ bs) = recordArgs L pos as ++ recordArgs L (pos + (stream as).length) bs := by
  induction as generalizing pos with
  | nil => simp [recordArgs, stream]
  | cons a as ih => simp [recordArgs, stream, ih, Nat.add_assoc]

theorem recordArgs_length (L : DirentLayout) (rs : List (List Nat)) (pos : Nat) :
    (recordArgs L pos rs).length = rs.length := by
  induction rs generalizing pos with
  | nil => rfl
  | cons a as ih => simp [recordArgs, ih]

theorem feed_append (filldir : Filldir σ) (d : σ) (as bs : List FilldirArgs) :
    feed filldir d (as ++ bs) = feed filldir (feed filldir d as) bs := by
  induction as generalizing d with
  | nil => rfl
  | cons a as ih => simp [feed, ih]

theorem accepts_of_never_stops (filldir : Filldir σ) (h : ∀ d a, (filldir d a).2 = 0)
    (d : σ) (as : List FilldirArgs) : Accepts filldir d as := by
  induction as generalizing d with
  | nil => trivial
  | cons a as ih => exact ⟨h d a, ih _⟩

theorem wellFormed_header_le (L : DirentLayout) (hL : L.Regular) (r : List Nat)
    (hr : WellFormedRecord L r) :
    L.FUSE_NAME_OFFSET + (headerOf L r).namelen ≤ r.length := by
  rw [hr.2]; exact hL.2 _

theorem headerOf_append (L : DirentLayout) (r rest : List Nat)
    (h : L.FUSE_NAME_OFFSET ≤ r.length) : headerOf L (r ++ rest) = headerOf L r := by
  unfold headerOf
  rw [List.take_append_of_le_length h]

theorem direntArgs_append (L : DirentLayout) (r rest : List Nat) (pos : Nat)
    (h : L.FUSE_NAME_OFFSET + (headerOf L r).namelen ≤ r.length) :
    direntArgs L (r ++ rest) pos = direntArgs L r pos := by
  have h1 : L.FUSE_NAME_OFFSET ≤ r.length := by omega
  have hh := headerOf_append L r rest h1
  unfold headerOf at hh h
  simp only [direntArgs, hh]
  congr 1
  rw [List.drop_append_of_le_length h1, List.take_append_of_le_length]
  simp only [List.length_drop]; omega

/-- One iteration of the loop on a complete record the callback accepts. -/
theorem loop_record (L : DirentLayout) (hL : L.Regular) (filldir : Filldir σ)
    (r rest : List Nat) (hr : WellFormedRecord L r) (file : DirFile σ)
    (hacc : (filldir file.dstbuf (direntArgs L r file.f_pos)).2 = 0) (fuel : Nat) :
    parse_dirfile L filldir (fuel + 1) (r ++ rest) (r ++ rest).length file =
      parse_dirfile L filldir fuel rest rest.length
        { f_pos := file.f_pos + r.length,
          dstbuf := (filldir file.dstbuf (direntArgs L r file.f_pos)).1,
          calls := file.calls ++ [direntArgs L r file.f_pos] } := by
  have hle := wellFormed_header_le L hL r hr
  have h1 : L.FUSE_NAME_OFFSET ≤ r.length := by omega
  have hh := headerOf_append L r rest h1
  have hd := direntArgs_append L r rest file.f_pos hle
  have hlen := hr.2
  have hmax := hr.1
  unfold headerOf at hh hlen hmax
  rw [parse_dirfile]
  simp only [hh, hd, ← hlen, List.length_append]
  rw [if_pos (by omega), if_neg (by omega), if_neg (by omega)]
  simp only [hacc, ne_eq, not_true_eq_false, if_false]
  rw [List.drop_append_of_le_length (le_refl _)]
  simp

/-- The loop over a run of complete records, each accepted by the callback. -/
theorem loop_records (L : DirentLayout) (hL : L.Regular) (filldir : Filldir σ)
    (rs : List (List Nat)) (hrs : ∀ r ∈ rs, WellFormedRecord L r) (rest : List Nat) :
    ∀ (file : DirFile σ), Accepts filldir file.dstbuf (recordArgs L file.f_pos rs) →
      ∀ fuel : Nat,
      parse_dirfile L filldir (fuel + rs.length) (stream rs ++ rest)
          (stream rs ++ rest).length file =
        parse_dirfile L filldir fuel rest rest.length
          { f_pos := file.f_pos + (stream rs).length,
            dstbuf := feed filldir file.dstbuf (recordArgs L file.f_pos rs),
            calls := file.calls ++ recordArgs L file.f_pos rs } := by
  induction rs with
  | nil =>
    intro file _ fuel
    simp [stream, recordArgs, feed]
  | cons r rs ih =>
    intro file hacc fuel
    have hr : WellFormedRecord L r := hrs r (List.mem_cons_self _ _)
    have hrs2 : ∀ x ∈ rs, WellFormedRecord L x := fun x hx => hrs x (List.mem_cons_of_mem _ hx)
    obtain ⟨h0, hacc2⟩ := hacc
    have hstep := loop_record L hL filldir r (stream rs ++ rest) hr file h0
      (fuel + rs.length)
    have hfuel : fuel + (r :: rs).length = fuel + rs.length + 1 := by simp [Nat.add_assoc]
    simp only [stream, List.append_assoc, hfuel]
    rw [hstep]
    rw [ih hrs2 _ hacc2 fuel]
    simp [recordArgs, feed, Nat.add_assoc]

theorem wellFormed_length_pos (L : DirentLayout) (hL : L.Regular) (r : List Nat)
    (hr : WellFormedRecord L r) : 0 < r.length := by
  have := wellFormed_header_le L hL r hr
  have := hL.1
  omega

theorem length_le_stream_length (L : DirentLayout) (hL : L.Regular) (rs : List (List Nat))
    (hrs : ∀ r ∈ rs, WellFormedRecord L r) : rs.length ≤ (stream rs).length := by
  induction rs with
  | nil => simp
  | cons r rs ih =>
    have hr := wellFormed_length_pos L hL r (hrs r (List.mem_cons_self _ _))
    have := ih (fun x hx => hrs x (List.mem_cons_of_mem _ hx))
    simp only [stream, List.length_cons, List.length_append]
    omega

/-- Fewer bytes than a header are left: the loop ends. -/
theorem loop_short (L : DirentLayout) (filldir : Filldir σ) (rest : List Nat)
    (h : rest.length < L.FUSE_NAME_OFFSET) (file : DirFile σ) (fuel : Nat) :
    parse_dirfile L filldir (fuel + 1) rest rest.length file = some (0, file) := by
  rw [parse_dirfile, if_neg (by omega)]

/-- The record at the head of the buffer has an oversized name. -/
theorem loop_oversized (L : DirentLayout) (filldir : Filldir σ) (rest : List Nat)
    (h : L.FUSE_NAME_OFFSET ≤ rest.length) (hbig : NAME_MAX < (headerOf L rest).namelen)
    (file : DirFile σ) (fuel : Nat) :
    parse_dirfile L filldir (fuel + 1) rest rest.length file = some (-EPROTO, file) := by
  unfold headerOf at hbig
  rw [parse_dirfile, if_pos (by omega)]
  simp only [gt_iff_lt, hbig, if_true]

/-- The record at the head of the buffer declares more bytes than are left. -/
theorem loop_cut (L : DirentLayout) (filldir : Filldir σ) (rest : List Nat)
    (h : L.FUSE_NAME_OFFSET ≤ rest.length) (hsmall : (headerOf L rest).namelen ≤ NAME_MAX)
    (hcut : rest.length < L.FUSE_DIRENT_SIZE (headerOf L rest))
    (file : DirFile σ) (fuel : Nat) :
    parse_dirfile L filldir (fuel + 1) rest rest.length file = some (0, file) := by
  unfold headerOf at hsmall hcut
  rw [parse_dirfile, if_pos (by omega)]
  simp only [gt_iff_lt]
  rw [if_neg (by omega), if_pos hcut]

/-- The callback asks to stop at the complete record at the head of the buffer. -/
theorem loop_refused (L : DirentLayout) (hL : L.Regular) (filldir : Filldir σ)
    (r rest : List Nat) (hr : WellFormedRecord L r) (file : DirFile σ)
    (hstop : (filldir file.dstbuf (direntArgs L r file.f_pos)).2 ≠ 0) (fuel : Nat) :
    parse_dirfile L filldir (fuel + 1) (r ++ rest) (r ++ rest).length file =
      some (0, { f_pos := file.f_pos,
                 dstbuf := (filldir file.dstbuf (direntArgs L r file.f_pos)).1,
                 calls := file.calls ++ [direntArgs L r file.f_pos] }) := by
  have hle := wellFormed_header_le L hL r hr
  have h1 : L.FUSE_NAME_OFFSET ≤ r.length := by omega
  have hh := headerOf_append L r rest h1
  have hd := direntArgs_append L r rest file.f_pos hle
  have hlen := hr.2
  have hmax := hr.1
  unfold headerOf at hh hlen hmax
  rw [parse_dirfile]
  simp only [hh, hd, ← hlen, List.length_append]
  rw [if_pos (by omega), if_neg (by omega), if_neg (by omega)]
  simp only [hstop, ne_eq, not_false_eq_true, if_true]

/-- The head of a strict initial segment of a complete record stops the loop
without an error. -/
theorem loop_segment (L : DirentLayout) (filldir : Filldir σ)
    (r : List Nat) (hr : WellFormedRecord L r) (k : Nat) (hk : k < r.length)
    (file : DirFile σ) (fuel : Nat) :
    parse_dirfile L filldir (fuel + 1) (r.take k) (r.take k).length file = some (0, file) := by
  have hlen : (r.take k).length = k := by simp; omega
  by_cases hshort : k < L.FUSE_NAME_OFFSET
  · exact loop_short L filldir _ (by omega) file fuel
  · have hhead : headerOf L (r.take k) = headerOf L r := by
      unfold headerOf
      rw [List.take_take, Nat.min_eq_left (by omega)]
    apply loop_cut L filldir _ (by omega)
    · rw [hhead]; exact hr.1
    · rw [hhead, ← hr.2]; omega

theorem sampleLayout_regular (align : Nat) (h : 0 < align) : (sampleLayout align).Regular := by
  refine ⟨Nat.succ_pos 10, fun d => ?_⟩
  show 11 + d.namelen ≤ (11 + d.namelen + (align - 1)) / align * align
  have h1 := Nat.div_add_mod (11 + d.namelen + (align - 1)) align
  have h2 := Nat.mod_lt (11 + d.namelen + (align - 1)) h
  rw [Nat.mul_comm] at h1
  omega

/-- The entries of `recordArgs`, written out: the entry of the record at index
`i` carries the name bytes, `namelen`, `ino` and `type` of that record and the
position at which the record starts. -/
theorem recordArgs_entry (L : DirentLayout) (rs : List (List Nat)) :
    ∀ (pos i : Nat), (recordArgs L pos rs)[i]? =
      (rs[i]?).map (fun r =>
        ({ name := (r.drop L.FUSE_NAME_OFFSET).take (headerOf L r).namelen,
           namelen := (headerOf L r).namelen,
           offset := pos + (stream (rs.take i)).length,
           ino := (headerOf L r).ino,
           type := (headerOf L r).type } : FilldirArgs)) := by
  induction rs with
  | nil => intro pos i; simp [recordArgs]
  | cons r rs ih =>
    intro pos i
    cases i with
    | zero => simp [recordArgs, direntArgs, headerOf, stream]
    | succ i =>
      simp only [recordArgs, List.getElem?_cons_succ, ih (pos + r.length) i, List.take_succ_cons,
        stream, List.length_append, Nat.add_assoc]

/-- C1: a buffer of complete records followed by a strict initial segment of
one more record, parsed with a callback that never asks to stop, passes exactly
the complete records to the callback, in order, advances `f_pos` by the total
length of the complete records and returns 0.  The entry passed for the record
at index `i` carries that record's name bytes, `namelen`, `ino` and `type` and
the position at which the record starts; nothing is passed or consumed for the
trailing segment. -/
theorem parse_dirfile_truncated_tail (L : DirentLayout) (hL : L.Regular)
    (filldir : Filldir σ) (hcont : ∀ d a, (filldir d a).2 = 0)
    (rs : List (List Nat)) (hrs : ∀ r ∈ rs, WellFormedRecord L r)
    (r : List Nat) (hr : WellFormedRecord L r) (k : Nat) (hk : k < r.length)
    (file : DirFile σ) (fuel : Nat) (hfuel : (stream rs ++ r.take k).length < fuel) :
    parse_dirfile L filldir fuel (stream rs ++ r.take k) (stream rs ++ r.take k).length file =
      some (0, { f_pos := file.f_pos + (stream rs).length,
                 dstbuf := feed filldir file.dstbuf (recordArgs L file.f_pos rs),
                 calls := file.calls ++ recordArgs L file.f_pos rs }) ∧
    (recordArgs L file.f_pos rs).length = rs.length ∧
    ∀ i, (recordArgs L file.f_pos rs)[i]? =
      (rs[i]?).map (fun x =>
        ({ name := (x.drop L.FUSE_NAME_OFFSET).take (headerOf L x).namelen,
           namelen := (headerOf L x).namelen,
           offset := file.f_pos + (stream (rs.take i)).length,
           ino := (headerOf L x).ino,
           type := (headerOf L x).type } : FilldirArgs)) := by
  refine ⟨?_, recordArgs_length L rs _, recordArgs_entry L rs file.f_pos⟩
  have hlen := length_le_stream_length L hL rs hrs
  simp only [List.length_append] at hfuel
  obtain ⟨f, rfl⟩ : ∃ f, fuel = (f + 1) + rs.length := ⟨fuel - rs.length - 1, by omega⟩
  rw [loop_records L hL filldir rs hrs _ file
    (accepts_of_never_stops filldir hcont _ _) (f + 1)]
  exact loop_segment L filldir r hr k hk _ f

/-- C1 at a concrete input: two complete 16-byte records named "x" and "yy"
and the first 12 bytes of a third one named "zzz"; the callback gets the two
entries, at positions 100 and 116, and `f_pos` ends at 132. -/
theorem parse_dirfile_truncated_tail_witness :
    parse_dirfile (sampleLayout 8) collectAll 45
        (stream [sampleRecord 8 7 8 [120], sampleRecord 8 9 4 [121, 121]] ++
          (sampleRecord 8 257 10 [122, 122, 122]).take 12)
        (stream [sampleRecord 8 7 8 [120], sampleRecord 8 9 4 [121, 121]] ++
          (sampleRecord 8 257 10 [122, 122, 122]).take 12).length
        ⟨100, [], []⟩ =
      some (0, { f_pos := 132,
                 dstbuf := [{ name := [120], namelen := 1, offset := 100, ino := 7, type := 8 },
                   { name := [121, 121], namelen := 2, offset := 116, ino := 9, type := 4 }],
                 calls := [{ name := [120], namelen := 1, offset := 100, ino := 7, type := 8 },
                   { name := [121, 121], namelen := 2, offset := 116, ino := 9,
                     type := 4 }] }) :=
  (parse_dirfile_truncated_tail (sampleLayout 8) (sampleLayout_regular 8 (by decide))
    collectAll (fun _ _ => rfl)
    [sampleRecord 8 7 8 [120], sampleRecord 8 9 4 [121, 121]] (by decide)
    (sampleRecord 8 257 10 [122, 122, 122]) (by decide) 12 (by decide)
    ⟨100, [], []⟩ 45 (by decide)).1

/-- C2 as stated fails: one complete record followed by a header whose
`namelen` is 256 gives `-EPROTO` after one entry has been passed to the
callback and `f_pos` has moved past it. -/
theorem parse_dirfile_oversized_after_entry :
    parse_dirfile (sampleLayout 8) collectAll 3
        (sampleRecord 8 7 8 [120] ++ [5, 0, 0, 0, 0, 0, 0, 0, 0, 1, 8]) 27 ⟨0, [], []⟩ =
      some (-EPROTO,
        { f_pos := 16,
          dstbuf := [{ name := [120], namelen := 1, offset := 0, ino := 7, type := 8 }],
          calls := [{ name := [120], namelen := 1, offset := 0, ino := 7, type := 8 }] }) := by
  decide

/-- C2, amended: when complete records accepted by the callback are followed by
a record header whose `namelen` exceeds `NAME_MAX`, the call returns `-EPROTO`
and the entries passed to the callback are exactly those complete records, with
`f_pos` advanced past them. -/
theorem parse_dirfile_oversized_name (L : DirentLayout) (hL : L.Regular)
    (filldir : Filldir σ) (rs : List (List Nat)) (hrs : ∀ r ∈ rs, WellFormedRecord L r)
    (rest : List Nat) (hhead : L.FUSE_NAME_OFFSET ≤ rest.length)
    (hbig : NAME_MAX < (headerOf L rest).namelen)
    (file : DirFile σ) (hacc : Accepts filldir file.dstbuf (recordArgs L file.f_pos rs))
    (fuel : Nat) (hfuel : (stream rs ++ rest).length < fuel) :
    parse_dirfile L filldir fuel (stream rs ++ rest) (stream rs ++ rest).length file =
      some (-EPROTO, { f_pos := file.f_pos + (stream rs).length,
                       dstbuf := feed filldir file.dstbuf (recordArgs L file.f_pos rs),
                       calls := file.calls ++ recordArgs L file.f_pos rs }) := by
  have hlen := length_le_stream_length L hL rs hrs
  simp only [List.length_append] at hfuel
  obtain ⟨f, rfl⟩ : ∃ f, fuel = (f + 1) + rs.length := ⟨fuel - rs.length - 1, by omega⟩
  rw [loop_records L hL filldir rs hrs _ file hacc (f + 1)]
  exact loop_oversized L filldir rest hhead hbig _ f

/-- C2, amended, at a concrete input: one record, then an oversized header. -/
theorem parse_dirfile_oversized_name_witness :
    parse_dirfile (sampleLayout 8) collectAll 28
        (stream [sampleRecord 8 7 8 [120]] ++ [5, 0, 0, 0, 0, 0, 0, 0, 0, 1, 8])
        (stream [sampleRecord 8 7 8 [120]] ++ [5, 0, 0, 0, 0, 0, 0, 0, 0, 1, 8]).length
        ⟨0, [], []⟩ =
      some (-EPROTO, { f_pos := 0 + (stream [sampleRecord 8 7 8 [120]]).length,
                       dstbuf := feed collectAll []
                         (recordArgs (sampleLayout 8) 0 [sampleRecord 8 7 8 [120]]),
                       calls := [] ++ recordArgs (sampleLayout 8) 0
                         [sampleRecord 8 7 8 [120]] }) :=
  parse_dirfile_oversized_name (sampleLayout 8) (sampleLayout_regular 8 (by decide))
    collectAll [sampleRecord 8 7 8 [120]] (by decide)
    [5, 0, 0, 0, 0, 0, 0, 0, 0, 1, 8] (by decide) (by decide)
    ⟨0, [], []⟩ ⟨rfl, trivial⟩ 28 (by decide)

/-- C3: a buffer that is exactly `n` complete records, parsed with a callback
that never asks to stop, gives `n` callback calls in buffer order, the i-th one
carrying the i-th record's name, `namelen`, `ino` and `type` and the position
where that record starts; the call returns 0 and `f_pos` has advanced by the
length of the buffer. -/
theorem parse_dirfile_complete_records (L : DirentLayout) (hL : L.Regular)
    (filldir : Filldir σ) (hcont : ∀ d a, (filldir d a).2 = 0)
    (rs : List (List Nat)) (hrs : ∀ r ∈ rs, WellFormedRecord L r)
    (file : DirFile σ) (fuel : Nat) (hfuel : (stream rs).length < fuel) :
    parse_dirfile L filldir fuel (stream rs) (stream rs).length file =
        some (0, { f_pos := file.f_pos + (stream rs).length,
                   dstbuf := feed filldir file.dstbuf (recordArgs L file.f_pos rs),
                   calls := file.calls ++ recordArgs L file.f_pos rs }) ∧
      (recordArgs L file.f_pos rs).length = rs.length := by
  refine ⟨?_, recordArgs_length L rs _⟩
  have hlen := length_le_stream_length L hL rs hrs
  obtain ⟨f, rfl⟩ : ∃ f, fuel = (f + 1) + rs.length := ⟨fuel - rs.length - 1, by omega⟩
  have h := loop_records L hL filldir rs hrs [] file
    (accepts_of_never_stops filldir hcont _ _) (f + 1)
  simp only [List.append_nil] at h
  rw [h]
  exact loop_short L filldir [] hL.1 _ f

/-- C3 at a concrete input: three 32-byte records named "x", "yy" and "zzz"
give three entries and 96 consumed bytes. -/
theorem parse_dirfile_complete_records_witness :
    parse_dirfile (sampleLayout 32) collectAll 97
        (stream [sampleRecord 32 7 8 [120], sampleRecord 32 9 4 [121, 121],
          sampleRecord 32 257 10 [122, 122, 122]])
        (stream [sampleRecord 32 7 8 [120], sampleRecord 32 9 4 [121, 121],
          sampleRecord 32 257 10 [122, 122, 122]]).length
        ⟨0, [], []⟩ =
        some (0, { f_pos := 96,
                   dstbuf := [{ name := [120], namelen := 1, offset := 0, ino := 7, type := 8 },
                     { name := [121, 121], namelen := 2, offset := 32, ino := 9, type := 4 },
                     { name := [122, 122, 122], namelen := 3, offset := 64, ino := 257,
                       type := 10 }],
                   calls := [{ name := [120], namelen := 1, offset := 0, ino := 7, type := 8 },
                     { name := [121, 121], namelen := 2, offset := 32, ino := 9, type := 4 },
                     { name := [122, 122, 122], namelen := 3, offset := 64, ino := 257,
                       type := 10 }] }) ∧
      (recordArgs (sampleLayout 32) 0
        [sampleRecord 32 7 8 [120], sampleRecord 32 9 4 [121, 121],
          sampleRecord 32 257 10 [122, 122, 122]]).length = 3 :=
  parse_dirfile_complete_records (sampleLayout 32) (sampleLayout_regular 32 (by decide))
    collectAll (fun _ _ => rfl)
    [sampleRecord 32 7 8 [120], sampleRecord 32 9 4 [121, 121],
      sampleRecord 32 257 10 [122, 122, 122]] (by decide)
    ⟨0, [], []⟩ 97 (by decide)

/-- C4: `parse_dirfile` is restartable.  When the callback accepts the records
before record `r` and asks to stop at `r`, the call returns 0 with `f_pos` at
the start of `r`; a second call with a callback that never stops, on the bytes
of the stream from that `f_pos`, passes `r` and its successors and stops at
the end of the buffer; the records consumed by the first call followed by
those of the second are the records of one uninterrupted parse. -/
theorem parse_dirfile_restartable {τ : Type} (L : DirentLayout) (hL : L.Regular)
    (filldir : Filldir σ) (filldir2 : Filldir τ)
    (pre : List (List Nat)) (r : List Nat) (post : List (List Nat))
    (hpre : ∀ x ∈ pre, WellFormedRecord L x) (hr : WellFormedRecord L r)
    (hpost : ∀ x ∈ post, WellFormedRecord L x)
    (file : DirFile σ) (hacc : Accepts filldir file.dstbuf (recordArgs L file.f_pos pre))
    (hstop : (filldir (feed filldir file.dstbuf (recordArgs L file.f_pos pre))
      (direntArgs L r (file.f_pos + (stream pre).length))).2 ≠ 0)
    (hcont : ∀ d a, (filldir2 d a).2 = 0) (d2 : τ)
    (fuel : Nat) (hfuel : (stream (pre ++ r :: post)).length < fuel) :
    parse_dirfile L filldir fuel (stream (pre ++ r :: post))
        (stream (pre ++ r :: post)).length file =
      some (0, { f_pos := file.f_pos + (stream pre).length,
                 dstbuf := (filldir (feed filldir file.dstbuf (recordArgs L file.f_pos pre))
                   (direntArgs L r (file.f_pos + (stream pre).length))).1,
                 calls := file.calls ++ recordArgs L file.f_pos pre ++
                   [direntArgs L r (file.f_pos + (stream pre).length)] }) ∧
    parse_dirfile L filldir2 fuel
        ((stream (pre ++ r :: post)).drop (file.f_pos + (stream pre).length - file.f_pos))
        ((stream (pre ++ r :: post)).length -
          (file.f_pos + (stream pre).length - file.f_pos))
        { f_pos := file.f_pos + (stream pre).length, dstbuf := d2, calls := [] } =
      some (0, { f_pos := file.f_pos + (stream (pre ++ r :: post)).length,
                 dstbuf := feed filldir2 d2
                   (recordArgs L (file.f_pos + (stream pre).length) (r :: post)),
                 calls := recordArgs L (file.f_pos + (stream pre).length) (r :: post) }) ∧
    parse_dirfile L filldir2 fuel (stream (pre ++ r :: post))
        (stream (pre ++ r :: post)).length
        { f_pos := file.f_pos, dstbuf := d2, calls := [] } =
      some (0, { f_pos := file.f_pos + (stream (pre ++ r :: post)).length,
                 dstbuf := feed filldir2 d2 (recordArgs L file.f_pos (pre ++ r :: post)),
                 calls := recordArgs L file.f_pos (pre ++ r :: post) }) ∧
    recordArgs L file.f_pos pre ++
        recordArgs L (file.f_pos + (stream pre).length) (r :: post) =
      recordArgs L file.f_pos (pre ++ r :: post) := by
  have hall : ∀ x ∈ pre ++ r :: post, WellFormedRecord L x := by
    intro x hx
    rcases List.mem_append.1 hx with h | h
    · exact hpre x h
    · rcases List.mem_cons.1 h with h | h
      · exact h ▸ hr
      · exact hpost x h
  have htail : ∀ x ∈ r :: post, WellFormedRecord L x := fun x hx =>
    hall x (List.mem_append_right _ hx)
  have hlenAll := length_le_stream_length L hL _ hall
  have hlenPre := length_le_stream_length L hL _ hpre
  have hlenTail := length_le_stream_length L hL _ htail
  have hsplit : stream (pre ++ r :: post) = stream pre ++ (r ++ stream post) := by
    rw [stream_append]; rfl
  have hsplitLen : (stream (pre ++ r :: post)).length =
      (stream pre).length + (stream (r :: post)).length := by
    rw [stream_append, List.length_append]
  refine ⟨?_, ?_, ?_, (recordArgs_append L pre (r :: post) file.f_pos).symm⟩
  · obtain ⟨f, rfl⟩ : ∃ f, fuel = (f + 1) + pre.length := ⟨fuel - pre.length - 1, by omega⟩
    rw [hsplit, loop_records L hL filldir pre hpre _ file hacc (f + 1)]
    rw [loop_refused L hL filldir r (stream post) hr _ hstop f]
  · have hdrop : (stream (pre ++ r :: post)).drop (file.f_pos + (stream pre).length - file.f_pos)
        = stream (r :: post) := by
      rw [Nat.add_sub_cancel_left, stream_append, List.drop_left]
    have hrem : (stream (pre ++ r :: post)).length -
        (file.f_pos + (stream pre).length - file.f_pos) = (stream (r :: post)).length := by
      omega
    rw [hdrop, hrem]
    obtain ⟨f, rfl⟩ : ∃ f, fuel = (f + 1) + (r :: post).length :=
      ⟨fuel - (r :: post).length - 1, by omega⟩
    have h := loop_records L hL filldir2 (r :: post) htail []
      { f_pos := file.f_pos + (stream pre).length, dstbuf := d2, calls := [] }
      (accepts_of_never_stops filldir2 hcont _ _) (f + 1)
    simp only [List.append_nil] at h
    rw [h, loop_short L filldir2 [] hL.1 _ f]
    simp [hsplitLen, Nat.add_assoc]
  · obtain ⟨f, rfl⟩ : ∃ f, fuel = (f + 1) + (pre ++ r :: post).length :=
      ⟨fuel - (pre ++ r :: post).length - 1, by omega⟩
    have h := loop_records L hL filldir2 (pre ++ r :: post) hall []
      { f_pos := file.f_pos, dstbuf := d2, calls := [] }
      (accepts_of_never_stops filldir2 hcont _ _) (f + 1)
    simp only [List.append_nil] at h
    rw [h, loop_short L filldir2 [] hL.1 _ f]
    simp

/-- C4 at a concrete input: a callback with room for one entry stops at the
second of three 16-byte records; the second call starts at position 116. -/
theorem parse_dirfile_restartable_witness :
    parse_dirfile (sampleLayout 8) collectUpTo 49
        (stream ([sampleRecord 8 7 8 [120]] ++
          sampleRecord 8 9 4 [121, 121] :: [sampleRecord 8 257 10 [122, 122, 122]]))
        (stream ([sampleRecord 8 7 8 [120]] ++
          sampleRecord 8 9 4 [121, 121] :: [sampleRecord 8 257 10 [122, 122, 122]])).length
        ⟨100, (1, []), []⟩ =
      some (0, { f_pos := 116,
                 dstbuf := (0, [{ name := [120], namelen := 1, offset := 100, ino := 7,
                                  type := 8 }]),
                 calls := [{ name := [120], namelen := 1, offset := 100, ino := 7, type := 8 },
                   { name := [121, 121], namelen := 2, offset := 116, ino := 9, type := 4 }] }) ∧
    parse_dirfile (sampleLayout 8) collectAll 49
        ((stream ([sampleRecord 8 7 8 [120]] ++
          sampleRecord 8 9 4 [121, 121] :: [sampleRecord 8 257 10 [122, 122, 122]])).drop
            (100 + (stream [sampleRecord 8 7 8 [120]]).length - 100))
        ((stream ([sampleRecord 8 7 8 [120]] ++
          sampleRecord 8 9 4 [121, 121] :: [sampleRecord 8 257 10 [122, 122, 122]])).length -
            (100 + (stream [sampleRecord 8 7 8 [120]]).length - 100))
        { f_pos := 116, dstbuf := [], calls := [] } =
      some (0, { f_pos := 148,
                 dstbuf := [{ name := [121, 121], namelen := 2, offset := 116, ino := 9,
                              type := 4 },
                   { name := [122, 122, 122], namelen := 3, offset := 132, ino := 257,
                     type := 10 }],
                 calls := [{ name := [121, 121], namelen := 2, offset := 116, ino := 9,
                             type := 4 },
                   { name := [122, 122, 122], namelen := 3, offset := 132, ino := 257,
                     type := 10 }] }) ∧
    parse_dirfile (sampleLayout 8) collectAll 49
        (stream ([sampleRecord 8 7 8 [120]] ++
          sampleRecord 8 9 4 [121, 121] :: [sampleRecord 8 257 10 [122, 122, 122]]))
        (stream ([sampleRecord 8 7 8 [120]] ++
          sampleRecord 8 9 4 [121, 121] :: [sampleRecord 8 257 10 [122, 122, 122]])).length
        { f_pos := 100, dstbuf := [], calls := [] } =
      some (0, { f_pos := 148,
                 dstbuf := feed collectAll [] (recordArgs (sampleLayout 8) 100
                   ([sampleRecord 8 7 8 [120]] ++
                     sampleRecord 8 9 4 [121, 121] :: [sampleRecord 8 257 10 [122, 122, 122]])),
                 calls := recordArgs (sampleLayout 8) 100
                   ([sampleRecord 8 7 8 [120]] ++
                     sampleRecord 8 9 4 [121, 121] :: [sampleRecord 8 257 10 [122, 122, 122]]) }) ∧
    recordArgs (sampleLayout 8) 100 [sampleRecord 8 7 8 [120]] ++
        recordArgs (sampleLayout 8) (100 + (stream [sampleRecord 8 7 8 [120]]).length)
          (sampleRecord 8 9 4 [121, 121] :: [sampleRecord 8 257 10 [122, 122, 122]]) =
      recordArgs (sampleLayout 8) 100
        ([sampleRecord 8 7 8 [120]] ++
          sampleRecord 8 9 4 [121, 121] :: [sampleRecord 8 257 10 [122, 122, 122]]) :=
  parse_dirfile_restartable (sampleLayout 8) (sampleLayout_regular 8 (by decide))
    collectUpTo collectAll
    [sampleRecord 8 7 8 [120]] (sampleRecord 8 9 4 [121, 121])
    [sampleRecord 8 257 10 [122, 122, 122]]
    (by decide) (by decide) (by decide)
    ⟨100, (1, []), []⟩ ⟨rfl, trivial⟩ (by decide) (fun _ _ => rfl) [] 49 (by decide)

/-- C5 as stated fails: a complete record followed by the first 12 bytes of a
16-byte record (its header is readable and declares more bytes than are left)
gives the success status 0, not `-EPROTO`. -/
theorem parse_dirfile_cut_record_returns_zero :
    parse_dirfile (sampleLayout 8) collectAll 3
        (sampleRecord 8 7 8 [120] ++ (sampleRecord 8 9 4 [121, 121]).take 12) 28
        ⟨0, [], []⟩ =
      some (0,
        { f_pos := 16,
          dstbuf := [{ name := [120], namelen := 1, offset := 0, ino := 7, type := 8 }],
          calls := [{ name := [120], namelen := 1, offset := 0, ino := 7, type := 8 }] }) ∧
    (sampleLayout 8).FUSE_DIRENT_SIZE
        (headerOf (sampleLayout 8) ((sampleRecord 8 9 4 [121, 121]).take 12)) = 16 ∧
    (0 : Int) ≠ -EPROTO := by
  decide

/-- C5, amended: when complete records accepted by the callback are followed by
a record whose header is readable and whose declared length exceeds the bytes
left, the call stops there without passing that record to the callback and
without moving `f_pos` past its start; it returns the success status 0, unless
the `namelen` of that record also exceeds `NAME_MAX`, in which case it returns
`-EPROTO`. -/
theorem parse_dirfile_record_exceeds_buffer (L : DirentLayout) (hL : L.Regular)
    (filldir : Filldir σ) (rs : List (List Nat)) (hrs : ∀ r ∈ rs, WellFormedRecord L r)
    (rest : List Nat) (hhead : L.FUSE_NAME_OFFSET ≤ rest.length)
    (hcut : rest.length < L.FUSE_DIRENT_SIZE (headerOf L rest))
    (file : DirFile σ) (hacc : Accepts filldir file.dstbuf (recordArgs L file.f_pos rs))
    (fuel : Nat) (hfuel : (stream rs ++ rest).length < fuel) :
    parse_dirfile L filldir fuel (stream rs ++ rest) (stream rs ++ rest).length file =
      some (if NAME_MAX < (headerOf L rest).namelen then -EPROTO else 0,
        { f_pos := file.f_pos + (stream rs).length,
          dstbuf := feed filldir file.dstbuf (recordArgs L file.f_pos rs),
          calls := file.calls ++ recordArgs L file.f_pos rs }) := by
  have hlen := length_le_stream_length L hL rs hrs
  simp only [List.length_append] at hfuel
  obtain ⟨f, rfl⟩ : ∃ f, fuel = (f + 1) + rs.length := ⟨fuel - rs.length - 1, by omega⟩
  rw [loop_records L hL filldir rs hrs _ file hacc (f + 1)]
  by_cases hbig : NAME_MAX < (headerOf L rest).namelen
  · rw [if_pos hbig]
    exact loop_oversized L filldir rest hhead hbig _ f
  · rw [if_neg hbig]
    exact loop_cut L filldir rest hhead (by omega) hcut _ f

/-- C5, amended, at a concrete input: one record, then 12 bytes of a 16-byte
record. -/
theorem parse_dirfile_record_exceeds_buffer_witness :
    parse_dirfile (sampleLayout 8) collectAll 29
        (stream [sampleRecord 8 7 8 [120]] ++ (sampleRecord 8 9 4 [121, 121]).take 12)
        (stream [sampleRecord 8 7 8 [120]] ++ (sampleRecord 8 9 4 [121, 121]).take 12).length
        ⟨0, [], []⟩ =
      some (if NAME_MAX <
            (headerOf (sampleLayout 8) ((sampleRecord 8 9 4 [121, 121]).take 12)).namelen
          then -EPROTO else 0,
        { f_pos := 0 + (stream [sampleRecord 8 7 8 [120]]).length,
          dstbuf := feed collectAll []
            (recordArgs (sampleLayout 8) 0 [sampleRecord 8 7 8 [120]]),
          calls := [] ++ recordArgs (sampleLayout 8) 0 [sampleRecord 8 7 8 [120]] }) :=
  parse_dirfile_record_exceeds_buffer (sampleLayout 8) (sampleLayout_regular 8 (by decide))
    collectAll [sampleRecord 8 7 8 [120]] (by decide)
    ((sampleRecord 8 9 4 [121, 121]).take 12) (by decide) (by decide)
    ⟨0, [], []⟩ ⟨rfl, trivial⟩ 29 (by decide)


/-! ## The entry points: lemmas and theorems -/

theorem iget_request_send (w : World) (req : Request) (ino : Nat) (alloc_ok : Bool) :
    iget (request_send w req) ino alloc_ok = iget w ino alloc_ok := rfl

/-- C6: `fuse_lookup` treats absence as success.  With status `-ENOENT` the
entry gets the dentry operations and a negative binding and the result is
`NULL`; with any other non-zero status the result is `ERR_PTR` of that status
and neither the entry nor the inode cache changes; with status 0 and an inode
obtained from `iget` for the returned id, the entry is bound to that inode,
which holds the state `fuse_init_inode` gives it from the returned attributes,
and the result is `NULL` (when `iget` gives no inode the result is
`ERR_PTR(-ENOMEM)` and nothing is bound). -/
theorem fuse_lookup_outcomes (abi : FuseAbi) (w : World) (dir : Inode) (entry : Dentry)
    (out : Reply fuse_lookup_out) (alloc_ok : Bool) :
    (out.error = -ENOENT →
      (fuse_lookup abi w dir entry out alloc_ok).1 = DentryResult.null ∧
      (fuse_lookup abi w dir entry out alloc_ok).2.1 =
        { entry with d_op := some DentryOps.fuse_dentry_opertations, d_inode := none,
                     hashed := true } ∧
      (fuse_lookup abi w dir entry out alloc_ok).2.2.inodes = w.inodes) ∧
    (out.error ≠ 0 → out.error ≠ -ENOENT →
      (fuse_lookup abi w dir entry out alloc_ok).1 = DentryResult.err_ptr out.error ∧
      (fuse_lookup abi w dir entry out alloc_ok).2.1 = entry ∧
      (fuse_lookup abi w dir entry out alloc_ok).2.2.inodes = w.inodes) ∧
    (out.error = 0 → ∀ inode, iget w out.arg.ino alloc_ok = some inode →
      (fuse_lookup abi w dir entry out alloc_ok).1 = DentryResult.null ∧
      (fuse_lookup abi w dir entry out alloc_ok).2.1 =
        { entry with d_op := some DentryOps.fuse_dentry_opertations,
                     d_inode := some out.arg.ino, hashed := true } ∧
      (fuse_lookup abi w dir entry out alloc_ok).2.2.inodes out.arg.ino =
        some (fuse_init_inode inode out.arg.attr) ∧
      ∀ n, n ≠ out.arg.ino →
        (fuse_lookup abi w dir entry out alloc_ok).2.2.inodes n = w.inodes n) ∧
    (out.error = 0 → iget w out.arg.ino alloc_ok = none →
      (fuse_lookup abi w dir entry out alloc_ok).1 = DentryResult.err_ptr (-ENOMEM) ∧
      (fuse_lookup abi w dir entry out alloc_ok).2.1 = entry ∧
      (fuse_lookup abi w dir entry out alloc_ok).2.2.inodes = w.inodes) := by
  refine ⟨?_, ?_, ?_, ?_⟩
  · intro h
    have h0 : out.error ≠ 0 := by rw [h]; decide
    have h1 : ¬ (out.error ≠ -ENOENT) := not_not.mpr h
    simp only [fuse_lookup, if_neg h0, if_neg h1]
    simp [d_add, d_instantiate, request_send]
  · intro h0 h1
    simp only [fuse_lookup, if_neg h0, if_pos h1]
    simp [request_send]
  · intro h0 inode hi
    simp only [fuse_lookup, if_pos h0, iget_request_send, hi]
    simp only [d_add, d_instantiate, World.store, request_send, if_true, true_and]
    intro n hn
    simp [hn]
  · intro h0 hi
    simp only [fuse_lookup, if_pos h0, iget_request_send, hi]
    simp [request_send]

/-- C6 at concrete inputs: a lookup of "a" answered with `-ENOENT`, with `-5`,
and with status 0, id 42 and the attributes of a regular file. -/
theorem fuse_lookup_outcomes_witness :
    ((fuse_lookup sampleAbi emptyWorld (new_inode 1) (freshDentry [97])
        { error := -ENOENT, arg := { ino := 0, attr := sampleAttr 0 } } true).1 =
        DentryResult.null ∧
      (fuse_lookup sampleAbi emptyWorld (new_inode 1) (freshDentry [97])
        { error := -ENOENT, arg := { ino := 0, attr := sampleAttr 0 } } true).2.1 =
        { freshDentry [97] with d_op := some DentryOps.fuse_dentry_opertations,
                                d_inode := none, hashed := true } ∧
      (fuse_lookup sampleAbi emptyWorld (new_inode 1) (freshDentry [97])
        { error := -ENOENT, arg := { ino := 0, attr := sampleAttr 0 } } true).2.2.inodes =
        emptyWorld.inodes) ∧
    ((fuse_lookup sampleAbi emptyWorld (new_inode 1) (freshDentry [97])
        { error := -5, arg := { ino := 0, attr := sampleAttr 0 } } true).1 =
        DentryResult.err_ptr (-5) ∧
      (fuse_lookup sampleAbi emptyWorld (new_inode 1) (freshDentry [97])
        { error := -5, arg := { ino := 0, attr := sampleAttr 0 } } true).2.1 =
        freshDentry [97] ∧
      (fuse_lookup sampleAbi emptyWorld (new_inode 1) (freshDentry [97])
        { error := -5, arg := { ino := 0, attr := sampleAttr 0 } } true).2.2.inodes =
        emptyWorld.inodes) ∧
    ((fuse_lookup sampleAbi emptyWorld (new_inode 1) (freshDentry [97])
        { error := 0, arg := { ino := 42, attr := sampleAttr 0o100644 } } true).1 =
        DentryResult.null ∧
      (fuse_lookup sampleAbi emptyWorld (new_inode 1) (freshDentry [97])
        { error := 0, arg := { ino := 42, attr := sampleAttr 0o100644 } } true).2.1 =
        { freshDentry [97] with d_op := some DentryOps.fuse_dentry_opertations,
                                d_inode := some 42, hashed := true } ∧
      (fuse_lookup sampleAbi emptyWorld (new_inode 1) (freshDentry [97])
        { error := 0, arg := { ino := 42, attr := sampleAttr 0o100644 } } true).2.2.inodes 42 =
        some (fuse_init_inode (new_inode 42) (sampleAttr 0o100644)) ∧
      ∀ n, n ≠ 42 →
        (fuse_lookup sampleAbi emptyWorld (new_inode 1) (freshDentry [97])
          { error := 0, arg := { ino := 42, attr := sampleAttr 0o100644 } } true).2.2.inodes n =
          emptyWorld.inodes n) ∧
    ((fuse_lookup sampleAbi emptyWorld (new_inode 1) (freshDentry [97])
        { error := 0, arg := { ino := 42, attr := sampleAttr 0o100644 } } false).1 =
        DentryResult.err_ptr (-ENOMEM) ∧
      (fuse_lookup sampleAbi emptyWorld (new_inode 1) (freshDentry [97])
        { error := 0, arg := { ino := 42, attr := sampleAttr 0o100644 } } false).2.1 =
        freshDentry [97] ∧
      (fuse_lookup sampleAbi emptyWorld (new_inode 1) (freshDentry [97])
        { error := 0, arg := { ino := 42, attr := sampleAttr 0o100644 } } false).2.2.inodes =
        emptyWorld.inodes) :=
  ⟨(fuse_lookup_outcomes sampleAbi emptyWorld (new_inode 1) (freshDentry [97])
      { error := -ENOENT, arg := { ino := 0, attr := sampleAttr 0 } } true).1 rfl,
   (fuse_lookup_outcomes sampleAbi emptyWorld (new_inode 1) (freshDentry [97])
      { error := -5, arg := { ino := 0, attr := sampleAttr 0 } } true).2.1
      (by decide) (by decide),
   (fuse_lookup_outcomes sampleAbi emptyWorld (new_inode 1) (freshDentry [97])
      { error := 0, arg := { ino := 42, attr := sampleAttr 0o100644 } } true).2.2.1
      rfl (new_inode 42) rfl,
   (fuse_lookup_outcomes sampleAbi emptyWorld (new_inode 1) (freshDentry [97])
      { error := 0, arg := { ino := 42, attr := sampleAttr 0o100644 } } false).2.2.2
      rfl rfl⟩

/-- C7: every operation other than lookup returns the daemon's status
unchanged.  Once the request buffer is allocated, `fuse_mkdir`, `fuse_symlink`,
`fuse_unlink`, `fuse_rmdir`, `fuse_rename` and `fuse_link` return the reply
status, whatever it is.  For `fuse_mknod` and `fuse_create`, `fuse_revalidate`
of the root, `read_link` (whatever its page holds) and `fuse_dir_open` (called
with `O_DIRECTORY`) a non-zero status is returned unchanged, and then no inode is instantiated, no
attribute is changed, no link buffer is returned and no handle is stored. -/
theorem status_returned_verbatim (abi : FuseAbi) (w : World) (dir newdir inode : Inode)
    (entry newent : Dentry) (mode rdev : Int) (link : List Nat) (file : File)
    (alloc_ok : Bool) (page : List Nat) (out : Reply Unit) (outm : Reply fuse_mknod_out)
    (outg : Reply fuse_getattr_out) (outl : Reply (List Nat)) (outd : Reply fuse_getdir_out) :
    (fuse_mkdir abi w dir entry mode true out).1 = out.error ∧
    (fuse_symlink w dir entry link true out).1 = out.error ∧
    (fuse_unlink w dir entry out).1 = out.error ∧
    (fuse_rmdir w dir entry out).1 = out.error ∧
    (fuse_rename abi w dir entry newdir newent true out).1 = out.error ∧
    (fuse_link abi w inode newdir newent true out).1 = out.error ∧
    (outm.error ≠ 0 →
      (fuse_mknod abi w dir entry mode rdev true outm alloc_ok).1 = outm.error ∧
      (fuse_mknod abi w dir entry mode rdev true outm alloc_ok).2.1 = entry ∧
      (fuse_mknod abi w dir entry mode rdev true outm alloc_ok).2.2.inodes = w.inodes) ∧
    (outm.error ≠ 0 →
      (fuse_create abi w dir entry mode true outm alloc_ok).1 = outm.error ∧
      (fuse_create abi w dir entry mode true outm alloc_ok).2.1 = entry ∧
      (fuse_create abi w dir entry mode true outm alloc_ok).2.2.inodes = w.inodes) ∧
    (inode.i_ino = abi.FUSE_ROOT_INO → outg.error ≠ 0 →
      (fuse_revalidate abi w inode outg).1 = outg.error ∧
      (fuse_revalidate abi w inode outg).2.1 = inode ∧
      (fuse_revalidate abi w inode outg).2.2.inodes = w.inodes) ∧
    (outl.error ≠ 0 →
      (read_link w inode (some page) outl).1 = outl.error ∧
      (read_link w inode (some page) outl).2.1 = none) ∧
    (file.f_flags &&& O_DIRECTORY ≠ 0 → outd.error ≠ 0 →
      (fuse_dir_open abi w inode file outd).1 = outd.error ∧
      (fuse_dir_open abi w inode file outd).2.1 = file ∧
      (fuse_dir_open abi w inode file outd).2.2.puts = w.puts) := by
  have hmknod : ∀ r : Int, outm.error ≠ 0 →
      (fuse_mknod abi w dir entry mode r true outm alloc_ok).1 = outm.error ∧
      (fuse_mknod abi w dir entry mode r true outm alloc_ok).2.1 = entry ∧
      (fuse_mknod abi w dir entry mode r true outm alloc_ok).2.2.inodes = w.inodes := by
    intro r h
    simp only [fuse_mknod, Bool.not_true, Bool.false_eq_true, if_false, if_pos h]
    simp [request_send]
  refine ⟨by simp [fuse_mkdir], by simp [fuse_symlink], by simp [fuse_unlink, fuse_remove],
    by simp [fuse_rmdir, fuse_remove], by simp [fuse_rename], by simp [fuse_link],
    hmknod rdev, hmknod 0, ?_, ?_, ?_⟩
  · intro hroot h
    have hr : ¬ (inode.i_ino ≠ abi.FUSE_ROOT_INO) := not_not.mpr hroot
    simp only [fuse_revalidate, if_neg hr, if_neg h]
    simp [request_send]
  · intro h
    simp only [read_link, if_pos h]
    exact ⟨trivial, trivial⟩
  · intro hflag h
    simp only [fuse_dir_open, if_neg hflag, if_neg h]
    simp [request_send]

/-- C7 at a concrete input: every reply carries the status `-ENOENT`. -/
theorem status_returned_verbatim_witness :
    (fuse_mkdir sampleAbi emptyWorld (new_inode 1) (freshDentry [97]) 0o755 true
      { error := -ENOENT, arg := () }).1 = -ENOENT ∧
    (fuse_symlink emptyWorld (new_inode 1) (freshDentry [97]) [98] true
      { error := -ENOENT, arg := () }).1 = -ENOENT ∧
    (fuse_unlink emptyWorld (new_inode 1) (freshDentry [97])
      { error := -ENOENT, arg := () }).1 = -ENOENT ∧
    (fuse_rmdir emptyWorld (new_inode 1) (freshDentry [97])
      { error := -ENOENT, arg := () }).1 = -ENOENT ∧
    (fuse_rename sampleAbi emptyWorld (new_inode 1) (freshDentry [97]) (new_inode 1)
      (freshDentry [98]) true { error := -ENOENT, arg := () }).1 = -ENOENT ∧
    (fuse_link sampleAbi emptyWorld (new_inode 1) (new_inode 1) (freshDentry [98]) true
      { error := -ENOENT, arg := () }).1 = -ENOENT ∧
    ((fuse_mknod sampleAbi emptyWorld (new_inode 1) (freshDentry [97]) 0o100644 0 true
        { error := -ENOENT, arg := { ino := 42, attr := sampleAttr 0o100644 } } true).1 =
        -ENOENT ∧
      (fuse_mknod sampleAbi emptyWorld (new_inode 1) (freshDentry [97]) 0o100644 0 true
        { error := -ENOENT, arg := { ino := 42, attr := sampleAttr 0o100644 } } true).2.1 =
        freshDentry [97] ∧
      (fuse_mknod sampleAbi emptyWorld (new_inode 1) (freshDentry [97]) 0o100644 0 true
        { error := -ENOENT, arg := { ino := 42, attr := sampleAttr 0o100644 } } true).2.2.inodes =
        emptyWorld.inodes) ∧
    ((fuse_create sampleAbi emptyWorld (new_inode 1) (freshDentry [97]) 0o100644 true
        { error := -ENOENT, arg := { ino := 42, attr := sampleAttr 0o100644 } } true).1 =
        -ENOENT ∧
      (fuse_create sampleAbi emptyWorld (new_inode 1) (freshDentry [97]) 0o100644 true
        { error := -ENOENT, arg := { ino := 42, attr := sampleAttr 0o100644 } } true).2.1 =
        freshDentry [97] ∧
      (fuse_create sampleAbi emptyWorld (new_inode 1) (freshDentry [97]) 0o100644 true
        { error := -ENOENT, arg := { ino := 42, attr := sampleAttr 0o100644 } } true).2.2.inodes =
        emptyWorld.inodes) ∧
    ((fuse_revalidate sampleAbi emptyWorld (new_inode 1)
        { error := -ENOENT, arg := { attr := sampleAttr 0o040755 } }).1 = -ENOENT ∧
      (fuse_revalidate sampleAbi emptyWorld (new_inode 1)
        { error := -ENOENT, arg := { attr := sampleAttr 0o040755 } }).2.1 = new_inode 1 ∧
      (fuse_revalidate sampleAbi emptyWorld (new_inode 1)
        { error := -ENOENT, arg := { attr := sampleAttr 0o040755 } }).2.2.inodes =
        emptyWorld.inodes) ∧
    ((read_link emptyWorld (new_inode 1) (some (List.replicate PAGE_SIZE 170))
        { error := -ENOENT, arg := [98] }).1 = -ENOENT ∧
      (read_link emptyWorld (new_inode 1) (some (List.replicate PAGE_SIZE 170))
        { error := -ENOENT, arg := [98] }).2.1 = none) ∧
    ((fuse_dir_open sampleAbi emptyWorld (new_inode 1)
        { f_flags := O_DIRECTORY, f_pos := 0, private_data := none }
        { error := -ENOENT, arg := { file := some { i_mode := 0o100644, data := [] } } }).1 =
        -ENOENT ∧
      (fuse_dir_open sampleAbi emptyWorld (new_inode 1)
        { f_flags := O_DIRECTORY, f_pos := 0, private_data := none }
        { error := -ENOENT, arg := { file := some { i_mode := 0o100644, data := [] } } }).2.1 =
        { f_flags := O_DIRECTORY, f_pos := 0, private_data := none } ∧
      (fuse_dir_open sampleAbi emptyWorld (new_inode 1)
        { f_flags := O_DIRECTORY, f_pos := 0, private_data := none }
        { error := -ENOENT, arg := { file := some { i_mode := 0o100644, data := [] } } }).2.2.puts =
        emptyWorld.puts) :=
  have h := status_returned_verbatim sampleAbi emptyWorld (new_inode 1) (new_inode 1)
    (new_inode 1) (freshDentry [97]) (freshDentry [98]) 0o100644 0 [98]
    { f_flags := O_DIRECTORY, f_pos := 0, private_data := none } true
    (List.replicate PAGE_SIZE 170)
    { error := -ENOENT, arg := () }
    { error := -ENOENT, arg := { ino := 42, attr := sampleAttr 0o100644 } }
    { error := -ENOENT, arg := { attr := sampleAttr 0o040755 } }
    { error := -ENOENT, arg := [98] }
    { error := -ENOENT, arg := { file := some { i_mode := 0o100644, data := [] } } }
  ⟨h.1, h.2.1, h.2.2.1, h.2.2.2.1, h.2.2.2.2.1, h.2.2.2.2.2.1,
    h.2.2.2.2.2.2.1 (by decide), h.2.2.2.2.2.2.2.1 (by decide),
    h.2.2.2.2.2.2.2.2.1 rfl (by decide), h.2.2.2.2.2.2.2.2.2.1 (by decide),
    h.2.2.2.2.2.2.2.2.2.2 (by decide) (by decide)⟩

theorem change_attributes_ops (inode : Inode) (attr : fuse_attr) :
    (change_attributes inode attr).i_op = inode.i_op ∧
    (change_attributes inode attr).i_fop = inode.i_fop := ⟨rfl, rfl⟩

/-- Re-initialising an inode with a mode of the same type bits as the mode it
was initialised with selects the same tables. -/
theorem fuse_init_inode_same_type (i0 i : Inode) (a0 a : fuse_attr)
    (htype : a.mode &&& S_IFMT = a0.mode &&& S_IFMT)
    (hfop : i.i_fop = (fuse_init_inode i0 a0).i_fop) :
    (fuse_init_inode i a).i_op = (fuse_init_inode i0 a0).i_op ∧
    (fuse_init_inode i a).i_fop = (fuse_init_inode i0 a0).i_fop := by
  have e1 : S_ISREG a.mode ↔ S_ISREG a0.mode := by unfold S_ISREG; rw [htype]
  have e2 : S_ISDIR a.mode ↔ S_ISDIR a0.mode := by unfold S_ISDIR; rw [htype]
  have e3 : S_ISLNK a.mode ↔ S_ISLNK a0.mode := by unfold S_ISLNK; rw [htype]
  have e4 : S_ISCHR a.mode ↔ S_ISCHR a0.mode := by unfold S_ISCHR; rw [htype]
  have e5 : S_ISBLK a.mode ↔ S_ISBLK a0.mode := by unfold S_ISBLK; rw [htype]
  have e6 : S_ISFIFO a.mode ↔ S_ISFIFO a0.mode := by unfold S_ISFIFO; rw [htype]
  have e7 : S_ISSOCK a.mode ↔ S_ISSOCK a0.mode := by unfold S_ISSOCK; rw [htype]
  simp only [fuse_init_inode, change_attributes, init_special_inode, e1, e2, e3, e4, e5, e6,
    e7] at hfop ⊢
  by_cases g1 : S_ISREG a0.mode
  · simp [g1]
  · by_cases g2 : S_ISDIR a0.mode
    · simp [g1, g2]
    · by_cases g3 : S_ISLNK a0.mode
      · simp only [g1, g2, g3, if_true, if_false] at hfop ⊢
        exact ⟨trivial, hfop⟩
      · by_cases g4 : S_ISCHR a0.mode
        · simp [g1, g2, g3, g4]
        · by_cases g5 : S_ISBLK a0.mode
          · simp [g1, g2, g3, g4, g5]
          · by_cases g6 : S_ISFIFO a0.mode
            · simp [g1, g2, g3, g4, g5, g6]
            · by_cases g7 : S_ISSOCK a0.mode
              · simp [g1, g2, g3, g4, g5, g6, g7]
              · simp only [g1, g2, g3, g4, g5, g6, g7, if_false] at hfop ⊢
                exact ⟨trivial, hfop⟩

theorem step_keeps_ops (abi : FuseAbi) (n : Nat) (i0 : Inode) (a0 : fuse_attr) (w : World)
    (c : Call) (hw : OpsKept n i0 a0 w)
    (hsame : ∀ mode, c.Names n mode → mode &&& S_IFMT = a0.mode &&& S_IFMT) :
    OpsKept n i0 a0 (step abi w c) := by
  obtain ⟨i, hi, hop, hfop⟩ := hw
  cases c with
  | lookup dir entry out alloc_ok =>
    simp only [step, fuse_lookup]
    by_cases h0 : out.error = 0
    · rw [if_pos h0]
      by_cases hn : out.arg.ino = n
      · have hget : iget w out.arg.ino alloc_ok = some i := by simp [iget, hn, hi]
        simp only [iget_request_send, hget]
        have hk := fuse_init_inode_same_type i0 i a0 out.arg.attr
          (hsame _ ⟨h0, hn, rfl⟩) hfop
        exact ⟨_, by simp [World.store, hn], hk.1, hk.2⟩
      · cases hget : iget w out.arg.ino alloc_ok with
        | none =>
          simp only [iget_request_send, hget]
          exact ⟨i, hi, hop, hfop⟩
        | some j =>
          simp only [iget_request_send, hget]
          refine ⟨i, ?_, hop, hfop⟩
          simp [World.store, request_send, Ne.symm hn, hi]
    · rw [if_neg h0]
      by_cases h1 : out.error ≠ -ENOENT
      · rw [if_pos h1]; exact ⟨i, hi, hop, hfop⟩
      · rw [if_neg h1]; exact ⟨i, hi, hop, hfop⟩
  | mknod dir entry mode rdev kmalloc_ok out alloc_ok =>
    simp only [step, fuse_mknod]
    cases kmalloc_ok with
    | false => exact ⟨i, hi, hop, hfop⟩
    | true =>
      simp only [Bool.not_true, Bool.false_eq_true, if_false]
      by_cases h0 : out.error = 0
      · rw [if_neg (not_not.mpr h0)]
        by_cases hn : out.arg.ino = n
        · have hget : iget w out.arg.ino alloc_ok = some i := by simp [iget, hn, hi]
          simp only [iget_request_send, hget]
          have hk := fuse_init_inode_same_type i0 i a0 out.arg.attr
            (hsame _ ⟨h0, hn, rfl⟩) hfop
          exact ⟨_, by simp [World.store, hn], hk.1, hk.2⟩
        · cases hget : iget w out.arg.ino alloc_ok with
          | none =>
            simp only [iget_request_send, hget]
            exact ⟨i, hi, hop, hfop⟩
          | some j =>
            simp only [iget_request_send, hget]
            refine ⟨i, ?_, hop, hfop⟩
            simp [World.store, request_send, Ne.symm hn, hi]
      · rw [if_pos h0]; exact ⟨i, hi, hop, hfop⟩
  | revalidate ino out =>
    simp only [step]
    cases hino : w.inodes ino with
    | none => exact ⟨i, hi, hop, hfop⟩
    | some j =>
      simp only []
      by_cases hn : ino = n
      · have hj : j = i := by
          rw [hn, hi] at hino; exact (Option.some.inj hino).symm
        subst hj
        refine ⟨(fuse_revalidate abi w j out).2.1, by simp [World.store, hn], ?_⟩
        simp only [fuse_revalidate]
        by_cases hr : j.i_ino ≠ abi.FUSE_ROOT_INO
        · rw [if_pos hr]; exact ⟨hop, hfop⟩
        · rw [if_neg hr]
          by_cases he : out.error = 0
          · rw [if_pos he]; exact ⟨hop, hfop⟩
          · rw [if_neg he]; exact ⟨hop, hfop⟩
      · refine ⟨i, ?_, hop, hfop⟩
        have hkeep : (fuse_revalidate abi w j out).2.2.inodes = w.inodes := by
          simp only [fuse_revalidate]
          by_cases hr : j.i_ino ≠ abi.FUSE_ROOT_INO
          · rw [if_pos hr]
          · rw [if_neg hr]
            by_cases he : out.error = 0
            · rw [if_pos he]; rfl
            · rw [if_neg he]; rfl
        simp [World.store, Ne.symm hn, hkeep, hi]

/-- C8 as stated fails: after a lookup answered with id 42 and a regular-file
mode, a second lookup answered with the same id and a directory mode changes
the `i_op` and `i_fop` of the cached inode 42. -/
theorem lookup_reclassifies_inode :
    ((run sampleAbi emptyWorld
        [Call.lookup (new_inode 1) (freshDentry [97])
          { error := 0, arg := { ino := 42, attr := sampleAttr 0o100644 } } true]).inodes 42).map
        (fun i => (i.i_op, i.i_fop)) =
      some (InodeOps.fuse_file_inode_operations, FileOps.fuse_file_operations) ∧
    ((run sampleAbi emptyWorld
        [Call.lookup (new_inode 1) (freshDentry [97])
          { error := 0, arg := { ino := 42, attr := sampleAttr 0o100644 } } true,
         Call.lookup (new_inode 1) (freshDentry [97])
          { error := 0, arg := { ino := 42, attr := sampleAttr 0o040755 } } true]).inodes 42).map
        (fun i => (i.i_op, i.i_fop)) =
      some (InodeOps.fuse_dir_inode_operations, FileOps.fuse_dir_operations) := by
  decide

/-- C8, amended: the `i_op` and `i_fop` selection of an existing inode stays as
it was when the inode was initialised through every sequence of `fuse_lookup`,
`fuse_mknod` and `fuse_revalidate` calls in which each successful lookup or
mknod reply for its id carries the same type bits (`mode & S_IFMT`) as the mode
it was initialised with. -/
theorem ops_kept_while_type_bits_kept (abi : FuseAbi) (n : Nat) (i0 : Inode) (a0 : fuse_attr)
    (calls : List Call) (w : World) (hw : w.inodes n = some (fuse_init_inode i0 a0))
    (hsame : ∀ c ∈ calls, ∀ mode, c.Names n mode →
      mode &&& S_IFMT = a0.mode &&& S_IFMT) :
    ∃ i, (run abi w calls).inodes n = some i ∧
      i.i_op = (fuse_init_inode i0 a0).i_op ∧ i.i_fop = (fuse_init_inode i0 a0).i_fop := by
  have hgen : ∀ (cs : List Call) (v : World), OpsKept n i0 a0 v →
      (∀ c ∈ cs, ∀ mode, c.Names n mode → mode &&& S_IFMT = a0.mode &&& S_IFMT) →
      OpsKept n i0 a0 (run abi v cs) := by
    intro cs
    induction cs with
    | nil => intro v hv _; exact hv
    | cons c cs ih =>
      intro v hv hs
      have h1 := step_keeps_ops abi n i0 a0 v c hv (hs c (List.mem_cons_self _ _))
      exact ih (step abi v c) h1 (fun x hx => hs x (List.mem_cons_of_mem _ hx))
  exact hgen calls w ⟨_, hw, rfl, rfl⟩ hsame

/-- C8, amended, at a concrete input: inode 42, initialised as a character
device, goes through a lookup answered for id 42 with a character-device mode
of other permission bits, a revalidation, and a successful mknod of a
directory with id 43; it keeps the special inode operations and the
character-device file operations. -/
theorem ops_kept_while_type_bits_kept_witness :
    ∃ i, (run sampleAbi
        (emptyWorld.store 42 (fuse_init_inode (new_inode 42) (sampleAttr 0o020666)))
        [Call.lookup (new_inode 1) (freshDentry [97])
          { error := 0, arg := { ino := 42, attr := sampleAttr 0o020600 } } true,
         Call.revalidate 42 { error := 0, arg := { attr := sampleAttr 0o040755 } },
         Call.mknod (new_inode 1) (freshDentry [98]) 0o040755 0 true
          { error := 0, arg := { ino := 43, attr := sampleAttr 0o040755 } } true]).inodes 42 =
          some i ∧
      i.i_op = InodeOps.fuse_special_inode_operations ∧
      i.i_fop = FileOps.def_chr_fops :=
  ops_kept_while_type_bits_kept sampleAbi 42 (new_inode 42) (sampleAttr 0o020666)
    [Call.lookup (new_inode 1) (freshDentry [97])
      { error := 0, arg := { ino := 42, attr := sampleAttr 0o020600 } } true,
     Call.revalidate 42 { error := 0, arg := { attr := sampleAttr 0o040755 } },
     Call.mknod (new_inode 1) (freshDentry [98]) 0o040755 0 true
      { error := 0, arg := { ino := 43, attr := sampleAttr 0o040755 } } true]
    (emptyWorld.store 42 (fuse_init_inode (new_inode 42) (sampleAttr 0o020666)))
    (by simp [World.store])
    (by
      intro c hc mode hn
      simp only [List.mem_cons, List.mem_singleton, List.not_mem_nil, or_false] at hc
      rcases hc with rfl | rfl | rfl
      · obtain ⟨_, _, rfl⟩ := hn
        decide
      · exact hn.elim
      · exact absurd hn.2.1 (by decide))

/-- C9 as stated fails: a positive binding without `LOOKUP_CONTINUE` and a
negative binding at the last segment are both reported invalid (0). -/
theorem fuse_dentry_revalidate_last_segment_invalid :
    fuse_dentry_revalidate { freshDentry [97] with d_inode := some 42 } 0 = 0 ∧
    fuse_dentry_revalidate (freshDentry [97]) 0 = 0 := by
  decide

/-- C9, amended: `fuse_dentry_revalidate` reports a binding valid (returns 1)
if and only if the binding is positive and `LOOKUP_CONTINUE` is set in the
flags; in every other case it reports the binding invalid (returns 0). -/
theorem fuse_dentry_revalidate_valid_iff (entry : Dentry) (flags : Nat) :
    (fuse_dentry_revalidate entry flags = 1 ↔
      entry.d_inode ≠ none ∧ flags &&& LOOKUP_CONTINUE ≠ 0) ∧
    (fuse_dentry_revalidate entry flags = 0 ↔
      entry.d_inode = none ∨ flags &&& LOOKUP_CONTINUE = 0) := by
  unfold fuse_dentry_revalidate
  by_cases h : entry.d_inode = none ∨ flags &&& LOOKUP_CONTINUE = 0
  · rw [if_pos h]
    refine ⟨⟨fun h1 => absurd h1 (by decide), fun h1 => ?_⟩, ⟨fun _ => h, fun _ => rfl⟩⟩
    rcases h with h | h
    · exact absurd h h1.1
    · exact absurd h h1.2
  · rw [if_neg h]
    refine ⟨⟨fun _ => ?_, fun _ => rfl⟩, ⟨fun h1 => absurd h1 (by decide), fun h1 => absurd h1 h⟩⟩
    exact ⟨fun h1 => h (Or.inl h1), fun h1 => h (Or.inr h1)⟩

theorem type_tests_exclusive (m : Nat) :
    ¬ (S_ISREG m ∧ S_ISDIR m) ∧ ¬ (S_ISREG m ∧ S_ISLNK m) ∧ ¬ (S_ISDIR m ∧ S_ISLNK m) := by
  unfold S_ISREG S_ISDIR S_ISLNK
  refine ⟨?_, ?_, ?_⟩ <;> rintro ⟨h1, h2⟩ <;> rw [h1] at h2 <;> revert h2 <;> decide

theorem device_tests_exclusive (m : Nat) :
    (S_ISBLK m → ¬ S_ISCHR m) ∧ (S_ISFIFO m → ¬ S_ISCHR m ∧ ¬ S_ISBLK m) ∧
    (S_ISSOCK m → ¬ S_ISCHR m ∧ ¬ S_ISBLK m ∧ ¬ S_ISFIFO m) := by
  unfold S_ISCHR S_ISBLK S_ISFIFO S_ISSOCK
  refine ⟨?_, ?_, ?_⟩ <;> intro h <;> rw [h] <;> decide

/-- What `fuse_init_inode` does in its last branch. -/
theorem fuse_init_inode_special (inode : Inode) (attr : fuse_attr)
    (h1 : ¬ S_ISREG attr.mode) (h2 : ¬ S_ISDIR attr.mode) (h3 : ¬ S_ISLNK attr.mode) :
    fuse_init_inode inode attr =
      init_special_inode
        { change_attributes inode attr with i_op := InodeOps.fuse_special_inode_operations }
        attr.mode attr.rdev := by
  simp [fuse_init_inode, change_attributes, h1, h2, h3]

/-- The fields of the result of the host function `init_special_inode`. -/
theorem init_special_inode_fields (inode : Inode) (mode rdev : Nat) :
    (init_special_inode inode mode rdev).i_op = inode.i_op ∧
    (init_special_inode inode mode rdev).special_inits =
      inode.special_inits ++ [(mode, rdev)] ∧
    (S_ISCHR mode → (init_special_inode inode mode rdev).i_fop = FileOps.def_chr_fops) ∧
    (S_ISBLK mode → (init_special_inode inode mode rdev).i_fop = FileOps.def_blk_fops) ∧
    (S_ISFIFO mode → (init_special_inode inode mode rdev).i_fop = FileOps.def_fifo_fops) ∧
    (S_ISSOCK mode → (init_special_inode inode mode rdev).i_fop = FileOps.bad_sock_fops) ∧
    (¬ S_ISCHR mode → ¬ S_ISBLK mode → ¬ S_ISFIFO mode → ¬ S_ISSOCK mode →
      (init_special_inode inode mode rdev).i_fop = inode.i_fop) ∧
    { init_special_inode inode mode rdev with
        i_fop := inode.i_fop, special_inits := inode.special_inits } =
      { inode with i_mode := mode } := by
  have hex := device_tests_exclusive mode
  by_cases c1 : S_ISCHR mode
  · have hres : init_special_inode inode mode rdev =
        { inode with i_mode := mode, i_fop := FileOps.def_chr_fops,
                     special_inits := inode.special_inits ++ [(mode, rdev)] } := by
      simp only [init_special_inode, if_pos c1]
    rw [hres]
    exact ⟨rfl, rfl, fun _ => rfl, fun h => absurd c1 (hex.1 h),
      fun h => absurd c1 (hex.2.1 h).1, fun h => absurd c1 (hex.2.2 h).1,
      fun h => absurd c1 h, rfl⟩
  · by_cases c2 : S_ISBLK mode
    · have hres : init_special_inode inode mode rdev =
          { inode with i_mode := mode, i_fop := FileOps.def_blk_fops,
                       special_inits := inode.special_inits ++ [(mode, rdev)] } := by
        simp only [init_special_inode, if_neg c1, if_pos c2]
      rw [hres]
      exact ⟨rfl, rfl, fun h => absurd h c1, fun _ => rfl,
        fun h => absurd c2 (hex.2.1 h).2, fun h => absurd c2 (hex.2.2 h).2.1,
        fun _ h => absurd c2 h, rfl⟩
    · by_cases c3 : S_ISFIFO mode
      · have hres : init_special_inode inode mode rdev =
            { inode with i_mode := mode, i_fop := FileOps.def_fifo_fops,
                         special_inits := inode.special_inits ++ [(mode, rdev)] } := by
          simp only [init_special_inode, if_neg c1, if_neg c2, if_pos c3]
        rw [hres]
        exact ⟨rfl, rfl, fun h => absurd h c1, fun h => absurd h c2, fun _ => rfl,
          fun h => absurd c3 (hex.2.2 h).2.2, fun _ _ h => absurd c3 h, rfl⟩
      · by_cases c4 : S_ISSOCK mode
        · have hres : init_special_inode inode mode rdev =
              { inode with i_mode := mode, i_fop := FileOps.bad_sock_fops,
                           special_inits := inode.special_inits ++ [(mode, rdev)] } := by
            simp only [init_special_inode, if_neg c1, if_neg c2, if_neg c3, if_pos c4]
          rw [hres]
          exact ⟨rfl, rfl, fun h => absurd h c1, fun h => absurd h c2,
            fun h => absurd h c3, fun _ => rfl, fun _ _ _ h => absurd c4 h, rfl⟩
        · have hres : init_special_inode inode mode rdev =
              { inode with i_mode := mode,
                           special_inits := inode.special_inits ++ [(mode, rdev)] } := by
            simp only [init_special_inode, if_neg c1, if_neg c2, if_neg c3, if_neg c4]
          rw [hres]
          exact ⟨rfl, rfl, fun h => absurd h c1, fun h => absurd h c2,
            fun h => absurd h c3, fun h => absurd h c4, fun _ _ _ _ => rfl, rfl⟩

/-- A second `fuse_init_inode` with the same record changes nothing but the
ghost record of `init_special_inode` calls. -/
theorem fuse_init_inode_twice (inode : Inode) (attr : fuse_attr) :
    { fuse_init_inode (fuse_init_inode inode attr) attr with
        special_inits := (fuse_init_inode inode attr).special_inits } =
      fuse_init_inode inode attr := by
  by_cases h1 : S_ISREG attr.mode
  · simp [fuse_init_inode, change_attributes, h1]
  · by_cases h2 : S_ISDIR attr.mode
    · simp [fuse_init_inode, change_attributes, h1, h2]
    · by_cases h3 : S_ISLNK attr.mode
      · simp [fuse_init_inode, change_attributes, h1, h2, h3]
      · rw [fuse_init_inode_special _ attr h1 h2 h3, fuse_init_inode_special _ attr h1 h2 h3]
        by_cases c1 : S_ISCHR attr.mode
        · simp [init_special_inode, change_attributes, c1]
        · by_cases c2 : S_ISBLK attr.mode
          · simp [init_special_inode, change_attributes, c1, c2]
          · by_cases c3 : S_ISFIFO attr.mode
            · simp [init_special_inode, change_attributes, c1, c2, c3]
            · by_cases c4 : S_ISSOCK attr.mode
              · simp [init_special_inode, change_attributes, c1, c2, c3, c4]
              · simp [init_special_inode, change_attributes, c1, c2, c3, c4]

/-- C10: `fuse_init_inode` selects by the type bits of the received mode one of
four operation sets: file inode and file operations for a regular file,
directory inode and file operations for a directory, symlink inode operations
for a symbolic link, and special inode operations with one call of
`init_special_inode` carrying the record's `rdev` for every other mode, that
call being made in no other case.  In the last case `i_fop` is what the host
function installs for the device type (and is left as it was for a symbolic
link).  The three tests exclude each other, the selected `i_op` depends on
`attr->mode` only, and all other fields are those set by
`change_attributes`. -/
theorem fuse_init_inode_classifies (inode : Inode) (attr : fuse_attr) :
    (S_ISREG attr.mode →
      (fuse_init_inode inode attr).i_op = InodeOps.fuse_file_inode_operations ∧
      (fuse_init_inode inode attr).i_fop = FileOps.fuse_file_operations ∧
      (fuse_init_inode inode attr).special_inits = inode.special_inits) ∧
    (S_ISDIR attr.mode →
      (fuse_init_inode inode attr).i_op = InodeOps.fuse_dir_inode_operations ∧
      (fuse_init_inode inode attr).i_fop = FileOps.fuse_dir_operations ∧
      (fuse_init_inode inode attr).special_inits = inode.special_inits) ∧
    (S_ISLNK attr.mode →
      (fuse_init_inode inode attr).i_op = InodeOps.fuse_symlink_inode_operations ∧
      (fuse_init_inode inode attr).i_fop = inode.i_fop ∧
      (fuse_init_inode inode attr).special_inits = inode.special_inits) ∧
    (¬ S_ISREG attr.mode → ¬ S_ISDIR attr.mode → ¬ S_ISLNK attr.mode →
      (fuse_init_inode inode attr).i_op = InodeOps.fuse_special_inode_operations ∧
      (fuse_init_inode inode attr).special_inits =
        inode.special_inits ++ [(attr.mode, attr.rdev)] ∧
      (S_ISCHR attr.mode → (fuse_init_inode inode attr).i_fop = FileOps.def_chr_fops) ∧
      (S_ISBLK attr.mode → (fuse_init_inode inode attr).i_fop = FileOps.def_blk_fops) ∧
      (S_ISFIFO attr.mode → (fuse_init_inode inode attr).i_fop = FileOps.def_fifo_fops) ∧
      (S_ISSOCK attr.mode → (fuse_init_inode inode attr).i_fop = FileOps.bad_sock_fops) ∧
      (¬ S_ISCHR attr.mode → ¬ S_ISBLK attr.mode → ¬ S_ISFIFO attr.mode →
        ¬ S_ISSOCK attr.mode → (fuse_init_inode inode attr).i_fop = inode.i_fop)) ∧
    (¬ (S_ISREG attr.mode ∧ S_ISDIR attr.mode) ∧ ¬ (S_ISREG attr.mode ∧ S_ISLNK attr.mode) ∧
      ¬ (S_ISDIR attr.mode ∧ S_ISLNK attr.mode)) ∧
    (∀ (inode2 : Inode) (attr2 : fuse_attr), attr2.mode = attr.mode →
      (fuse_init_inode inode2 attr2).i_op = (fuse_init_inode inode attr).i_op) ∧
    { fuse_init_inode inode attr with
        i_op := inode.i_op, i_fop := inode.i_fop, special_inits := inode.special_inits } =
      change_attributes inode attr := by
  have hex := type_tests_exclusive attr.mode
  refine ⟨?_, ?_, ?_, ?_, hex, ?_, ?_⟩
  · intro h
    simp [fuse_init_inode, change_attributes, h]
  · intro h
    have h1 : ¬ S_ISREG attr.mode := fun h1 => hex.1 ⟨h1, h⟩
    simp [fuse_init_inode, change_attributes, h, h1]
  · intro h
    have h1 : ¬ S_ISREG attr.mode := fun h1 => hex.2.1 ⟨h1, h⟩
    have h2 : ¬ S_ISDIR attr.mode := fun h2 => hex.2.2 ⟨h2, h⟩
    simp [fuse_init_inode, change_attributes, h, h1, h2]
  · intro h1 h2 h3
    rw [fuse_init_inode_special inode attr h1 h2 h3]
    have hf := init_special_inode_fields
      { change_attributes inode attr with i_op := InodeOps.fuse_special_inode_operations }
      attr.mode attr.rdev
    exact ⟨hf.1, hf.2.1, hf.2.2.1, hf.2.2.2.1, hf.2.2.2.2.1, hf.2.2.2.2.2.1,
      hf.2.2.2.2.2.2.1⟩
  · intro inode2 attr2 hm
    by_cases h1 : S_ISREG attr.mode
    · simp [fuse_init_inode, change_attributes, hm, h1]
    · by_cases h2 : S_ISDIR attr.mode
      · simp [fuse_init_inode, change_attributes, hm, h1, h2]
      · by_cases h3 : S_ISLNK attr.mode
        · simp [fuse_init_inode, change_attributes, hm, h1, h2, h3]
        · rw [fuse_init_inode_special inode attr h1 h2 h3,
            fuse_init_inode_special inode2 attr2 (hm ▸ h1) (hm ▸ h2) (hm ▸ h3)]
          rw [(init_special_inode_fields _ _ _).1, (init_special_inode_fields _ _ _).1]
  · by_cases h1 : S_ISREG attr.mode
    · simp [fuse_init_inode, change_attributes, h1]
    · by_cases h2 : S_ISDIR attr.mode
      · simp [fuse_init_inode, change_attributes, h1, h2]
      · by_cases h3 : S_ISLNK attr.mode
        · simp [fuse_init_inode, change_attributes, h1, h2, h3]
        · rw [fuse_init_inode_special inode attr h1 h2 h3]
          have hf := (init_special_inode_fields
            { change_attributes inode attr with
                i_op := InodeOps.fuse_special_inode_operations }
            attr.mode attr.rdev).2.2.2.2.2.2.2
          have hg := congrArg (fun x : Inode => { x with i_op := inode.i_op }) hf
          simpa [change_attributes] using hg

/-- C10 at concrete inputs: a regular file, a directory, a symbolic link, a
character device with `rdev` 1281 and a FIFO. -/
theorem fuse_init_inode_classifies_witness :
    ((fuse_init_inode (new_inode 42) (sampleAttr 0o100644)).i_op =
        InodeOps.fuse_file_inode_operations ∧
      (fuse_init_inode (new_inode 42) (sampleAttr 0o100644)).i_fop =
        FileOps.fuse_file_operations ∧
      (fuse_init_inode (new_inode 42) (sampleAttr 0o100644)).special_inits = []) ∧
    ((fuse_init_inode (new_inode 42) (sampleAttr 0o040755)).i_op =
        InodeOps.fuse_dir_inode_operations ∧
      (fuse_init_inode (new_inode 42) (sampleAttr 0o040755)).i_fop =
        FileOps.fuse_dir_operations ∧
      (fuse_init_inode (new_inode 42) (sampleAttr 0o040755)).special_inits = []) ∧
    ((fuse_init_inode (new_inode 42) (sampleAttr 0o120777)).i_op =
        InodeOps.fuse_symlink_inode_operations ∧
      (fuse_init_inode (new_inode 42) (sampleAttr 0o120777)).i_fop = FileOps.empty_fops ∧
      (fuse_init_inode (new_inode 42) (sampleAttr 0o120777)).special_inits = []) ∧
    ((fuse_init_inode (new_inode 42) { sampleAttr 0o020666 with rdev := 1281 }).i_op =
        InodeOps.fuse_special_inode_operations ∧
      (fuse_init_inode (new_inode 42) { sampleAttr 0o020666 with rdev := 1281 }).special_inits =
        [(0o020666, 1281)] ∧
      (fuse_init_inode (new_inode 42) { sampleAttr 0o020666 with rdev := 1281 }).i_fop =
        FileOps.def_chr_fops) ∧
    (fuse_init_inode (new_inode 42) (sampleAttr 0o010644)).i_fop = FileOps.def_fifo_fops ∧
    (fuse_init_inode (new_inode 7) { sampleAttr 0o100644 with size := 9 }).i_op =
      (fuse_init_inode (new_inode 42) (sampleAttr 0o100644)).i_op :=
  ⟨(fuse_init_inode_classifies (new_inode 42) (sampleAttr 0o100644)).1 (by decide),
   (fuse_init_inode_classifies (new_inode 42) (sampleAttr 0o040755)).2.1 (by decide),
   (fuse_init_inode_classifies (new_inode 42) (sampleAttr 0o120777)).2.2.1 (by decide),
   ⟨((fuse_init_inode_classifies (new_inode 42)
        { sampleAttr 0o020666 with rdev := 1281 }).2.2.2.1
        (by decide) (by decide) (by decide)).1,
    ((fuse_init_inode_classifies (new_inode 42)
        { sampleAttr 0o020666 with rdev := 1281 }).2.2.2.1
        (by decide) (by decide) (by decide)).2.1,
    ((fuse_init_inode_classifies (new_inode 42)
        { sampleAttr 0o020666 with rdev := 1281 }).2.2.2.1
        (by decide) (by decide) (by decide)).2.2.1 (by decide)⟩,
   ((fuse_init_inode_classifies (new_inode 42) (sampleAttr 0o010644)).2.2.2.1
      (by decide) (by decide) (by decide)).2.2.2.2.1 (by decide),
   (fuse_init_inode_classifies (new_inode 42) (sampleAttr 0o100644)).2.2.2.2.2.1
      (new_inode 7) { sampleAttr 0o100644 with size := 9 } rfl⟩

/-! ## Attributes, directory open and revalidation -/

/-- C11: `change_attributes` sets the mode, link count, owner, group, size,
block size, block count and the three times of the inode to those of the
record, whatever they were before, and leaves `i_ino`, `i_op`, `i_fop` and
every other field unchanged. -/
theorem change_attributes_sets_and_frames (inode : Inode) (attr : fuse_attr) :
    ((change_attributes inode attr).i_mode = attr.mode ∧
      (change_attributes inode attr).i_nlink = attr.nlink ∧
      (change_attributes inode attr).i_uid = attr.uid ∧
      (change_attributes inode attr).i_gid = attr.gid ∧
      (change_attributes inode attr).i_size = attr.size ∧
      (change_attributes inode attr).i_blksize = attr.blksize ∧
      (change_attributes inode attr).i_blocks = attr.blocks ∧
      (change_attributes inode attr).i_atime = attr.atime ∧
      (change_attributes inode attr).i_mtime = attr.mtime ∧
      (change_attributes inode attr).i_ctime = attr.ctime) ∧
    ((change_attributes inode attr).i_ino = inode.i_ino ∧
      (change_attributes inode attr).i_op = inode.i_op ∧
      (change_attributes inode attr).i_fop = inode.i_fop ∧
      (change_attributes inode attr).special_inits = inode.special_inits) ∧
    ∀ other : Inode, other.i_ino = inode.i_ino → other.i_op = inode.i_op →
      other.i_fop = inode.i_fop → other.special_inits = inode.special_inits →
      change_attributes other attr = change_attributes inode attr := by
  refine ⟨⟨rfl, rfl, rfl, rfl, rfl, rfl, rfl, rfl, rfl, rfl⟩, ⟨rfl, rfl, rfl, rfl⟩, ?_⟩
  intro other h1 h2 h3 h4
  simp [change_attributes, h1, h2, h3, h4]

/-- C11 at a concrete input: a new inode 42 and a cached inode 42 with other
attribute values get the same state from the same record. -/
theorem change_attributes_sets_and_frames_witness :
    change_attributes { new_inode 42 with i_mode := 0o040755, i_size := 77, i_uid := 3 }
        (sampleAttr 0o100644) =
      change_attributes (new_inode 42) (sampleAttr 0o100644) :=
  (change_attributes_sets_and_frames (new_inode 42) (sampleAttr 0o100644)).2.2
    { new_inode 42 with i_mode := 0o040755, i_size := 77, i_uid := 3 } rfl rfl rfl rfl

/-- C12: applying the same attribute record twice gives the same inode as
applying it once: `change_attributes` is idempotent, and a second
`fuse_init_inode` leaves the attributes and the selected `i_op` and `i_fop` as
the first one set them (only the ghost record of `init_special_inode` calls
grows). -/
theorem attribute_apply_idempotent (inode : Inode) (attr : fuse_attr) :
    change_attributes (change_attributes inode attr) attr = change_attributes inode attr ∧
    { fuse_init_inode (fuse_init_inode inode attr) attr with
        special_inits := (fuse_init_inode inode attr).special_inits } =
      fuse_init_inode inode attr := by
  exact ⟨rfl, fuse_init_inode_twice inode attr⟩

/-- C13: `fuse_dir_open` stores the container file as the handle and returns 0
exactly when the flags contain `O_DIRECTORY`, the status is 0, the container
file is not `NULL` and its inode is a regular file; in every other case the
file is left as it was.  Without `O_DIRECTORY` it returns `-EISDIR` and sends
no request; with status 0 and a container that is `NULL` or not a regular file
it returns `-EPROTO`.  After a successful open `private_data` is not `NULL`,
and `fuse_dir_release` on that file returns 0 without reaching `BUG()`. -/
theorem fuse_dir_open_outcomes (abi : FuseAbi) (w : World) (inode : Inode) (file : File)
    (out : Reply fuse_getdir_out) :
    ((fuse_dir_open abi w inode file out).1 = 0 ↔
      (file.f_flags &&& O_DIRECTORY ≠ 0 ∧ out.error = 0 ∧
        ∃ cfile, out.arg.file = some cfile ∧ S_ISREG cfile.i_mode)) ∧
    ((fuse_dir_open abi w inode file out).1 = 0 →
      (fuse_dir_open abi w inode file out).2.1 = { file with private_data := out.arg.file } ∧
      ∃ cfile, (fuse_dir_open abi w inode file out).2.1.private_data = some cfile ∧
        ∀ v : World, fuse_dir_release v (fuse_dir_open abi w inode file out).2.1 =
          some (0, { v with puts := v.puts ++ [cfile] })) ∧
    ((fuse_dir_open abi w inode file out).1 ≠ 0 →
      (fuse_dir_open abi w inode file out).2.1 = file) ∧
    (file.f_flags &&& O_DIRECTORY = 0 →
      (fuse_dir_open abi w inode file out).1 = -EISDIR ∧
      (fuse_dir_open abi w inode file out).2.2.sent = w.sent) ∧
    (file.f_flags &&& O_DIRECTORY ≠ 0 → out.error = 0 →
      (out.arg.file = none ∨ ∃ cfile, out.arg.file = some cfile ∧ ¬ S_ISREG cfile.i_mode) →
      (fuse_dir_open abi w inode file out).1 = -EPROTO ∧
      (fuse_dir_open abi w inode file out).2.1 = file) := by
  have hE : (-EISDIR : Int) ≠ 0 := by decide
  have hP : (-EPROTO : Int) ≠ 0 := by decide
  by_cases hflag : file.f_flags &&& O_DIRECTORY = 0
  · have hres : fuse_dir_open abi w inode file out = (-EISDIR, file, w) := by
      simp only [fuse_dir_open, if_pos hflag]
    rw [hres]
    exact ⟨⟨fun h => absurd h hE, fun h => absurd hflag h.1⟩,
      fun h => absurd h hE, fun _ => rfl, fun _ => ⟨rfl, rfl⟩,
      fun h => absurd hflag h⟩
  · by_cases herr : out.error = 0
    · cases hfile : out.arg.file with
      | none =>
        have hres : fuse_dir_open abi w inode file out =
            (-EPROTO, file, request_send w
              { opcode := fuse_opcode.FUSE_GETDIR, ino := inode.i_ino,
                out_argsize := abi.sizeof_getdir_out }) := by
          simp only [fuse_dir_open, if_neg hflag, if_pos herr, hfile]
        rw [hres]
        refine ⟨⟨fun h => absurd h hP, fun h => ?_⟩,
          fun h => absurd h hP, fun _ => rfl, fun h => absurd h hflag,
          fun _ _ _ => ⟨rfl, rfl⟩⟩
        obtain ⟨_, _, c, hc, _⟩ := h
        exact absurd hc (by simp)
      | some cfile =>
        by_cases hreg : S_ISREG cfile.i_mode
        · have hres : fuse_dir_open abi w inode file out =
              (out.error, { file with private_data := some cfile }, request_send w
                { opcode := fuse_opcode.FUSE_GETDIR, ino := inode.i_ino,
                  out_argsize := abi.sizeof_getdir_out }) := by
            simp only [fuse_dir_open, if_neg hflag, if_pos herr, hfile, hreg,
              not_true_eq_false, if_false]
          rw [hres]
          refine ⟨⟨fun _ => ⟨hflag, herr, cfile, rfl, hreg⟩, fun _ => herr⟩,
            fun _ => ⟨rfl, cfile, rfl, fun v => rfl⟩, fun h => absurd herr h,
            fun h => absurd h hflag, fun _ _ h => ?_⟩
          rcases h with h | ⟨c, hc, hn⟩
          · exact absurd h (by simp)
          · have : c = cfile := (Option.some.inj hc).symm
            exact absurd (this ▸ hreg) hn
        · have hres : fuse_dir_open abi w inode file out =
              (-EPROTO, file,
                { request_send w
                    { opcode := fuse_opcode.FUSE_GETDIR, ino := inode.i_ino,
                      out_argsize := abi.sizeof_getdir_out } with
                  puts := w.puts ++ [cfile] }) := by
            simp only [fuse_dir_open, if_neg hflag, if_pos herr, hfile, hreg,
              not_false_eq_true, if_true]
            rfl
          rw [hres]
          refine ⟨⟨fun h => absurd h hP, fun h => ?_⟩,
            fun h => absurd h hP, fun _ => rfl, fun h => absurd h hflag,
            fun _ _ _ => ⟨rfl, rfl⟩⟩
          obtain ⟨_, _, c, hc, hr⟩ := h
          have : c = cfile := (Option.some.inj hc).symm
          exact absurd (this ▸ hr) hreg
    · have hres : fuse_dir_open abi w inode file out =
          (out.error, file, request_send w
            { opcode := fuse_opcode.FUSE_GETDIR, ino := inode.i_ino,
              out_argsize := abi.sizeof_getdir_out }) := by
        simp only [fuse_dir_open, if_neg hflag, if_neg herr]
      rw [hres]
      exact ⟨⟨fun h => absurd h herr, fun h => absurd h.2.1 herr⟩,
        fun h => absurd h herr, fun _ => rfl, fun h => absurd h hflag,
        fun _ h _ => absurd h herr⟩

/-- C13 at concrete inputs: an open with `O_DIRECTORY` answered with a regular
container file, an open without `O_DIRECTORY`, and an open answered with a
container that is a directory. -/
theorem fuse_dir_open_outcomes_witness :
    ((fuse_dir_open sampleAbi emptyWorld (new_inode 1)
        { f_flags := O_DIRECTORY, f_pos := 0, private_data := none }
        { error := 0, arg := { file := some { i_mode := 0o100644, data := [] } } }).2.1 =
        { f_flags := O_DIRECTORY, f_pos := 0,
          private_data := some { i_mode := 0o100644, data := [] } } ∧
      ∃ cfile, (fuse_dir_open sampleAbi emptyWorld (new_inode 1)
          { f_flags := O_DIRECTORY, f_pos := 0, private_data := none }
          { error := 0, arg := { file := some { i_mode := 0o100644, data := [] } } }).2.1.private_data =
            some cfile ∧
        ∀ v : World, fuse_dir_release v (fuse_dir_open sampleAbi emptyWorld (new_inode 1)
          { f_flags := O_DIRECTORY, f_pos := 0, private_data := none }
          { error := 0, arg := { file := some { i_mode := 0o100644, data := [] } } }).2.1 =
          some (0, { v with puts := v.puts ++ [cfile] })) ∧
    ((fuse_dir_open sampleAbi emptyWorld (new_inode 1)
        { f_flags := 0, f_pos := 0, private_data := none }
        { error := 0, arg := { file := some { i_mode := 0o100644, data := [] } } }).1 =
        -EISDIR ∧
      (fuse_dir_open sampleAbi emptyWorld (new_inode 1)
        { f_flags := 0, f_pos := 0, private_data := none }
        { error := 0, arg := { file := some { i_mode := 0o100644, data := [] } } }).2.2.sent =
        emptyWorld.sent) ∧
    ((fuse_dir_open sampleAbi emptyWorld (new_inode 1)
        { f_flags := O_DIRECTORY, f_pos := 0, private_data := none }
        { error := 0, arg := { file := some { i_mode := 0o040755, data := [] } } }).1 =
        -EPROTO ∧
      (fuse_dir_open sampleAbi emptyWorld (new_inode 1)
        { f_flags := O_DIRECTORY, f_pos := 0, private_data := none }
        { error := 0, arg := { file := some { i_mode := 0o040755, data := [] } } }).2.1 =
        { f_flags := O_DIRECTORY, f_pos := 0, private_data := none }) :=
  ⟨(fuse_dir_open_outcomes sampleAbi emptyWorld (new_inode 1)
      { f_flags := O_DIRECTORY, f_pos := 0, private_data := none }
      { error := 0, arg := { file := some { i_mode := 0o100644, data := [] } } }).2.1
      (by decide),
   (fuse_dir_open_outcomes sampleAbi emptyWorld (new_inode 1)
      { f_flags := 0, f_pos := 0, private_data := none }
      { error := 0, arg := { file := some { i_mode := 0o100644, data := [] } } }).2.2.2.1
      (by decide),
   (fuse_dir_open_outcomes sampleAbi emptyWorld (new_inode 1)
      { f_flags := O_DIRECTORY, f_pos := 0, private_data := none }
      { error := 0, arg := { file := some { i_mode := 0o040755, data := [] } } }).2.2.2.2
      (by decide) rfl (Or.inr ⟨_, rfl, by decide⟩)⟩

/-- C14: only the root is revalidated.  For an inode that is not the root
`fuse_revalidate` returns 0, sends nothing and leaves the inode as it is.  For
the root it sends exactly one `FUSE_GETATTR` request for the inode's id with
an empty body; with status 0 the inode becomes `change_attributes` of the
returned record, and with another status the inode is unchanged and the
status is returned. -/
theorem fuse_revalidate_root_only (abi : FuseAbi) (w : World) (inode : Inode)
    (out : Reply fuse_getattr_out) :
    (inode.i_ino ≠ abi.FUSE_ROOT_INO →
      fuse_revalidate abi w inode out = (0, inode, w)) ∧
    (inode.i_ino = abi.FUSE_ROOT_INO →
      (fuse_revalidate abi w inode out).1 = out.error ∧
      (fuse_revalidate abi w inode out).2.2.sent =
        w.sent ++ [{ opcode := fuse_opcode.FUSE_GETATTR, ino := inode.i_ino, argsize := 0,
                     arg := InArg.null, out_argsize := abi.sizeof_getattr_out,
                     out_argvar := 0 }] ∧
      (fuse_revalidate abi w inode out).2.2.inodes = w.inodes ∧
      (out.error = 0 →
        (fuse_revalidate abi w inode out).2.1 = change_attributes inode out.arg.attr) ∧
      (out.error ≠ 0 → (fuse_revalidate abi w inode out).2.1 = inode)) := by
  refine ⟨fun h => ?_, fun h => ?_⟩
  · simp only [fuse_revalidate, if_pos h]
  · have hr : ¬ (inode.i_ino ≠ abi.FUSE_ROOT_INO) := not_not.mpr h
    by_cases he : out.error = 0
    · have hres : fuse_revalidate abi w inode out =
          (out.error, change_attributes inode out.arg.attr, request_send w
            { opcode := fuse_opcode.FUSE_GETATTR, ino := inode.i_ino,
              out_argsize := abi.sizeof_getattr_out }) := by
        simp only [fuse_revalidate, if_neg hr, if_pos he]
      rw [hres]
      exact ⟨rfl, rfl, rfl, fun _ => rfl, fun h2 => absurd he h2⟩
    · have hres : fuse_revalidate abi w inode out =
          (out.error, inode, request_send w
            { opcode := fuse_opcode.FUSE_GETATTR, ino := inode.i_ino,
              out_argsize := abi.sizeof_getattr_out }) := by
        simp only [fuse_revalidate, if_neg hr, if_neg he]
      rw [hres]
      exact ⟨rfl, rfl, rfl, fun h2 => absurd h2 he, fun _ => rfl⟩

/-- C14 at concrete inputs: inode 42 is not revalidated; the root (inode 1) is,
once with status 0 and once with status `-5`. -/
theorem fuse_revalidate_root_only_witness :
    fuse_revalidate sampleAbi emptyWorld (new_inode 42)
        { error := 0, arg := { attr := sampleAttr 0o040755 } } =
      (0, new_inode 42, emptyWorld) ∧
    (fuse_revalidate sampleAbi emptyWorld (new_inode 1)
        { error := 0, arg := { attr := sampleAttr 0o040755 } }).2.1 =
      change_attributes (new_inode 1) (sampleAttr 0o040755) ∧
    (fuse_revalidate sampleAbi emptyWorld (new_inode 1)
        { error := -5, arg := { attr := sampleAttr 0o040755 } }).2.1 = new_inode 1 ∧
    (fuse_revalidate sampleAbi emptyWorld (new_inode 1)
        { error := -5, arg := { attr := sampleAttr 0o040755 } }).1 = -5 :=
  ⟨(fuse_revalidate_root_only sampleAbi emptyWorld (new_inode 42)
      { error := 0, arg := { attr := sampleAttr 0o040755 } }).1 (by decide),
   ((fuse_revalidate_root_only sampleAbi emptyWorld (new_inode 1)
      { error := 0, arg := { attr := sampleAttr 0o040755 } }).2 rfl).2.2.2.1 rfl,
   ((fuse_revalidate_root_only sampleAbi emptyWorld (new_inode 1)
      { error := -5, arg := { attr := sampleAttr 0o040755 } }).2 rfl).2.2.2.2 (by decide),
   ((fuse_revalidate_root_only sampleAbi emptyWorld (new_inode 1)
      { error := -5, arg := { attr := sampleAttr 0o040755 } }).2 rfl).1⟩

/-! ## Request bodies -/

theorem cstring_append_nul (s rest : List Nat) (h : NulFree s) :
    cstring (s ++ 0 :: rest) = s := by
  induction s with
  | nil => simp [cstring]
  | cons b s ih =>
    have hb : b ≠ 0 := h b (List.mem_cons_self _ _)
    have hs : NulFree s := fun x hx => h x (List.mem_cons_of_mem _ hx)
    have h2 := ih hs
    unfold cstring at h2 ⊢
    rw [List.cons_append, List.takeWhile_cons, if_pos (by simpa using hb), h2]

theorem cstring_of_nulFree (s : List Nat) (h : NulFree s) : cstring s = s := by
  induction s with
  | nil => simp [cstring]
  | cons b s ih =>
    have hb : b ≠ 0 := h b (List.mem_cons_self _ _)
    have hs : NulFree s := fun x hx => h x (List.mem_cons_of_mem _ hx)
    have h2 := ih hs
    unfold cstring at h2 ⊢
    rw [List.takeWhile_cons, if_pos (by simpa using hb), h2]

theorem strlen_of_nulFree (s : List Nat) (h : NulFree s) : strlen s = s.length := by
  unfold strlen; rw [cstring_of_nulFree s h]

/-- Two strings copied one after the other into a buffer of exactly their
size fill it with the first string, a NUL, the second string, a NUL. -/
theorem strcpy_two (a b : List Nat) (ha : NulFree a) (hb : NulFree b) :
    strcpy (strcpy (kmalloc (a.length + 1 + b.length + 1)) 0 a) (a.length + 1) b =
      a ++ [0] ++ b ++ [0] := by
  have h1 : strcpy (kmalloc (a.length + 1 + b.length + 1)) 0 a =
      (a ++ [0]) ++ List.replicate (b.length + 1) 0 := by
    simp only [strcpy, kmalloc, strlen_of_nulFree a ha, cstring_of_nulFree a ha,
      List.take_zero, List.nil_append, Nat.zero_add, List.drop_replicate]
    congr 2
    omega
  rw [h1]
  simp only [strcpy, strlen_of_nulFree b hb, cstring_of_nulFree b hb]
  have hlen : (a ++ [0]).length = a.length + 1 := by simp
  rw [List.take_append_of_le_length (by omega), List.take_of_length_le (by omega)]
  rw [List.drop_eq_nil_of_le (by simp; omega)]
  simp

theorem splitAtNul_two (a b : List Nat) (ha : NulFree a) (hb : NulFree b) :
    splitAtNul (a ++ [0] ++ b ++ [0]) = (a, b) := by
  have h1 : a ++ [0] ++ b ++ [0] = a ++ 0 :: (b ++ [0]) := by simp
  have hc : cstring (a ++ [0] ++ b ++ [0]) = a := by
    rw [h1]; exact cstring_append_nul a _ ha
  unfold splitAtNul strlen
  rw [hc]
  have hd : (a ++ [0] ++ b ++ [0]).drop (a.length + 1) = b ++ 0 :: [] := by
    have : a ++ [0] ++ b ++ [0] = (a ++ [0]) ++ (b ++ [0]) := by simp
    rw [this, List.drop_left' (by simp)]
  rw [hd, cstring_append_nul b [] hb]

theorem strcpy_length_of_fits (buf : List Nat) (off : Nat) (s : List Nat)
    (h : strcpyFits buf off s) : (strcpy buf off s).length = buf.length := by
  unfold strcpyFits at h
  unfold strcpy strlen at *
  simp only [List.length_append, List.length_take, List.length_drop, List.length_cons,
    List.length_nil]
  omega

/-- C15: for NUL-free names whose `d_name.len` is their length and a NUL-free
target, `fuse_symlink` sends the body `name ++ [0] ++ target ++ [0]` with
`argsize = len(name) + 1 + len(target) + 1`, and `fuse_rename` sends the record
holding the id of `newdir` and, in its `names` array,
`old ++ [0] ++ new ++ [0]`, with
`argsize = offsetof(names) + len(old) + 1 + len(new) + 1`.  Both `strcpy` calls
of each function write inside the allocated bytes, and splitting the variable
region at its NUL bytes gives back the two fields. -/
theorem two_name_bodies_round_trip (abi : FuseAbi) (w : World) (dir newdir : Inode)
    (entry newent : Dentry) (link : List Nat) (out : Reply Unit)
    (hname : NulFree entry.d_name.name) (hlen : entry.d_name.len = entry.d_name.name.length)
    (hnew : NulFree newent.d_name.name)
    (hnewlen : newent.d_name.len = newent.d_name.name.length)
    (hlink : NulFree link) :
    ((fuse_symlink w dir entry link true out).2.sent =
        w.sent ++ [{ opcode := fuse_opcode.FUSE_SYMLINK, ino := dir.i_ino,
                     argsize := entry.d_name.name.length + 1 + link.length + 1,
                     arg := InArg.bytes (entry.d_name.name ++ [0] ++ link ++ [0]),
                     out_argsize := 0, out_argvar := 0 }] ∧
      strcpyFits (kmalloc (entry.d_name.len + 1 + strlen link + 1)) 0 entry.d_name.name ∧
      strcpyFits (strcpy (kmalloc (entry.d_name.len + 1 + strlen link + 1)) 0
        entry.d_name.name) (entry.d_name.len + 1) link ∧
      splitAtNul (entry.d_name.name ++ [0] ++ link ++ [0]) = (entry.d_name.name, link)) ∧
    ((fuse_rename abi w dir entry newdir newent true out).2.sent =
        w.sent ++ [{ opcode := fuse_opcode.FUSE_RENAME, ino := dir.i_ino,
                     argsize := abi.offsetof_rename_names + entry.d_name.name.length + 1 +
                       newent.d_name.name.length + 1,
                     arg := InArg.rename_in newdir.i_ino
                       (entry.d_name.name ++ [0] ++ newent.d_name.name ++ [0]),
                     out_argsize := 0, out_argvar := 0 }] ∧
      strcpyFits (kmalloc (entry.d_name.len + 1 + (newent.d_name.len + 1))) 0
        entry.d_name.name ∧
      strcpyFits (strcpy (kmalloc (entry.d_name.len + 1 + (newent.d_name.len + 1))) 0
        entry.d_name.name) (entry.d_name.len + 1) newent.d_name.name ∧
      splitAtNul (entry.d_name.name ++ [0] ++ newent.d_name.name ++ [0]) =
        (entry.d_name.name, newent.d_name.name)) := by
  have hl := strlen_of_nulFree link hlink
  have hn := strlen_of_nulFree entry.d_name.name hname
  have hm := strlen_of_nulFree newent.d_name.name hnew
  have fits1 : ∀ k : Nat, strcpyFits (kmalloc (entry.d_name.len + 1 + k)) 0
      entry.d_name.name := by
    intro k
    simp only [strcpyFits, kmalloc, List.length_replicate, hn, hlen]
    omega
  have fits2 : ∀ (b : List Nat), NulFree b →
      strcpyFits (strcpy (kmalloc (entry.d_name.len + 1 + (b.length + 1))) 0
        entry.d_name.name) (entry.d_name.len + 1) b := by
    intro b hb
    unfold strcpyFits
    rw [strcpy_length_of_fits _ _ _ (fits1 _), strlen_of_nulFree b hb]
    simp only [kmalloc, List.length_replicate]
    omega
  refine ⟨⟨?_, ?_, ?_, splitAtNul_two _ _ hname hlink⟩,
    ⟨?_, ?_, ?_, splitAtNul_two _ _ hname hnew⟩⟩
  · have hbody := strcpy_two entry.d_name.name link hname hlink
    simp only [fuse_symlink, Bool.not_true, Bool.false_eq_true, if_false, request_send,
      hl, hlen, hbody]
  · rw [Nat.add_assoc (entry.d_name.len + 1)]
    exact fits1 _
  · have := fits2 link hlink
    rw [hl, Nat.add_assoc (entry.d_name.len + 1)]
    exact this
  · have hbody := strcpy_two entry.d_name.name newent.d_name.name hname hnew
    have hsize : abi.offsetof_rename_names + (entry.d_name.name.length + 1) +
        (newent.d_name.name.length + 1) - abi.offsetof_rename_names =
        entry.d_name.name.length + 1 + newent.d_name.name.length + 1 := by omega
    simp only [fuse_rename, Bool.not_true, Bool.false_eq_true, if_false, request_send,
      hlen, hnewlen, hsize, hbody]
    simp [Nat.add_assoc]
  · exact fits1 _
  · have := fits2 newent.d_name.name hnew
    rw [hnewlen]
    exact this

/-- C15 at a concrete input: the name "a", the target "bc" and the new name
"b". -/
theorem two_name_bodies_round_trip_witness :
    ((fuse_symlink emptyWorld (new_inode 1) (freshDentry [97]) [98, 99] true
        { error := 0, arg := () }).2.sent =
        emptyWorld.sent ++
          [{ opcode := fuse_opcode.FUSE_SYMLINK, ino := 1, argsize := 5,
             arg := InArg.bytes [97, 0, 98, 99, 0], out_argsize := 0, out_argvar := 0 }] ∧
      strcpyFits (kmalloc ((freshDentry [97]).d_name.len + 1 + strlen [98, 99] + 1)) 0
        (freshDentry [97]).d_name.name ∧
      strcpyFits (strcpy (kmalloc ((freshDentry [97]).d_name.len + 1 + strlen [98, 99] + 1)) 0
        (freshDentry [97]).d_name.name) ((freshDentry [97]).d_name.len + 1) [98, 99] ∧
      splitAtNul [97, 0, 98, 99, 0] = ([97], [98, 99])) ∧
    ((fuse_rename sampleAbi emptyWorld (new_inode 1) (freshDentry [97]) (new_inode 7)
        (freshDentry [98]) true { error := 0, arg := () }).2.sent =
        emptyWorld.sent ++
          [{ opcode := fuse_opcode.FUSE_RENAME, ino := 1, argsize := 12,
             arg := InArg.rename_in 7 [97, 0, 98, 0], out_argsize := 0, out_argvar := 0 }] ∧
      strcpyFits (kmalloc ((freshDentry [97]).d_name.len + 1 +
        ((freshDentry [98]).d_name.len + 1))) 0 (freshDentry [97]).d_name.name ∧
      strcpyFits (strcpy (kmalloc ((freshDentry [97]).d_name.len + 1 +
        ((freshDentry [98]).d_name.len + 1))) 0 (freshDentry [97]).d_name.name)
        ((freshDentry [97]).d_name.len + 1) (freshDentry [98]).d_name.name ∧
      splitAtNul [97, 0, 98, 0] = ([97], [98])) :=
  two_name_bodies_round_trip sampleAbi emptyWorld (new_inode 1) (new_inode 7)
    (freshDentry [97]) (freshDentry [98]) [98, 99] { error := 0, arg := () }
    (by decide) rfl (by decide) rfl (by decide)

/-! ## Requests per call, creation and lookup, failed replies -/

/-- C16: each entry point sends at most one request per call, with the opcode
and subject id of its row.  `fuse_lookup`, `fuse_unlink` and `fuse_rmdir` always
send one; `fuse_mknod`, `fuse_create`, `fuse_mkdir`, `fuse_symlink`,
`fuse_rename` and `fuse_link` send one when their buffer is allocated,
`read_link` when it gets a page, `fuse_dir_open` when `O_DIRECTORY` is
set and `fuse_revalidate` for the root; otherwise none is sent.  The subject is
the parent's id, except for link (the linked inode's id, the new parent's id
being in the body) and for readlink, open-directory and revalidate (the
inode's own id, with an empty body). -/
theorem one_request_per_call (abi : FuseAbi) (w : World) (dir newdir inode : Inode)
    (entry newent : Dentry) (mode rdev : Int) (link : List Nat) (file : File)
    (kmalloc_ok alloc_ok : Bool) (page : Option (List Nat)) (outl : Reply fuse_lookup_out)
    (outm : Reply fuse_mknod_out) (out : Reply Unit) (outg : Reply fuse_getattr_out)
    (outr : Reply (List Nat)) (outd : Reply fuse_getdir_out) :
    SendsOneIf True w (fuse_lookup abi w dir entry outl alloc_ok).2.2
      (fun r => r.opcode = fuse_opcode.FUSE_LOOKUP ∧ r.ino = dir.i_ino) ∧
    SendsOneIf (kmalloc_ok = true) w
      (fuse_mknod abi w dir entry mode rdev kmalloc_ok outm alloc_ok).2.2
      (fun r => r.opcode = fuse_opcode.FUSE_MKNOD ∧ r.ino = dir.i_ino ∧
        ∃ name, r.arg = InArg.mknod_in mode rdev name) ∧
    SendsOneIf (kmalloc_ok = true) w
      (fuse_create abi w dir entry mode kmalloc_ok outm alloc_ok).2.2
      (fun r => r.opcode = fuse_opcode.FUSE_MKNOD ∧ r.ino = dir.i_ino ∧
        ∃ name, r.arg = InArg.mknod_in mode 0 name) ∧
    SendsOneIf (kmalloc_ok = true) w (fuse_mkdir abi w dir entry mode kmalloc_ok out).2
      (fun r => r.opcode = fuse_opcode.FUSE_MKDIR ∧ r.ino = dir.i_ino) ∧
    SendsOneIf (kmalloc_ok = true) w (fuse_symlink w dir entry link kmalloc_ok out).2
      (fun r => r.opcode = fuse_opcode.FUSE_SYMLINK ∧ r.ino = dir.i_ino) ∧
    SendsOneIf True w (fuse_unlink w dir entry out).2
      (fun r => r.opcode = fuse_opcode.FUSE_UNLINK ∧ r.ino = dir.i_ino ∧
        r.argsize = entry.d_name.len + 1 ∧
        (entry.d_name.len = entry.d_name.name.length →
          r.arg = InArg.bytes (entry.d_name.name ++ [0]))) ∧
    SendsOneIf True w (fuse_rmdir w dir entry out).2
      (fun r => r.opcode = fuse_opcode.FUSE_RMDIR ∧ r.ino = dir.i_ino ∧
        r.argsize = entry.d_name.len + 1 ∧
        (entry.d_name.len = entry.d_name.name.length →
          r.arg = InArg.bytes (entry.d_name.name ++ [0]))) ∧
    SendsOneIf (kmalloc_ok = true) w
      (fuse_rename abi w dir entry newdir newent kmalloc_ok out).2
      (fun r => r.opcode = fuse_opcode.FUSE_RENAME ∧ r.ino = dir.i_ino) ∧
    SendsOneIf (kmalloc_ok = true) w (fuse_link abi w inode newdir newent kmalloc_ok out).2
      (fun r => r.opcode = fuse_opcode.FUSE_LINK ∧ r.ino = inode.i_ino ∧
        ∃ name, r.arg = InArg.link_in newdir.i_ino name) ∧
    SendsOneIf (page ≠ none) w (read_link w inode page outr).2.2
      (fun r => r.opcode = fuse_opcode.FUSE_READLINK ∧ r.ino = inode.i_ino ∧
        r.argsize = 0 ∧ r.arg = InArg.null) ∧
    SendsOneIf (file.f_flags &&& O_DIRECTORY ≠ 0) w (fuse_dir_open abi w inode file outd).2.2
      (fun r => r.opcode = fuse_opcode.FUSE_GETDIR ∧ r.ino = inode.i_ino ∧
        r.argsize = 0 ∧ r.arg = InArg.null) ∧
    SendsOneIf (inode.i_ino = abi.FUSE_ROOT_INO) w (fuse_revalidate abi w inode outg).2.2
      (fun r => r.opcode = fuse_opcode.FUSE_GETATTR ∧ r.ino = inode.i_ino ∧
        r.argsize = 0 ∧ r.arg = InArg.null) := by
  have hmknod : ∀ r0 : Int, SendsOneIf (kmalloc_ok = true) w
      (fuse_mknod abi w dir entry mode r0 kmalloc_ok outm alloc_ok).2.2
      (fun r => r.opcode = fuse_opcode.FUSE_MKNOD ∧ r.ino = dir.i_ino ∧
        ∃ name, r.arg = InArg.mknod_in mode r0 name) := by
    intro r0
    cases kmalloc_ok with
    | false => exact ⟨fun h => absurd h (by decide), fun _ => rfl⟩
    | true =>
      refine ⟨fun _ => ⟨
        { opcode := fuse_opcode.FUSE_MKNOD, ino := dir.i_ino,
          argsize := abi.offsetof_mknod_name + entry.d_name.len + 1,
          arg := InArg.mknod_in mode r0
            (strcpy (kmalloc (abi.offsetof_mknod_name + entry.d_name.len + 1 -
              abi.offsetof_mknod_name)) 0 entry.d_name.name),
          out_argsize := abi.sizeof_mknod_out }, ?_, rfl, rfl, _, rfl⟩,
        fun h => absurd rfl h⟩
      simp only [fuse_mknod, Bool.not_true, Bool.false_eq_true, if_false]
      by_cases he : outm.error ≠ 0
      · rw [if_pos he]; rfl
      · rw [if_neg he]
        cases hget : iget (request_send w _) outm.arg.ino alloc_ok <;> rfl
  have hremove : ∀ op : fuse_opcode, SendsOneIf True w (fuse_remove w dir entry op out).2
      (fun r => r.opcode = op ∧ r.ino = dir.i_ino ∧
        r.argsize = entry.d_name.len + 1 ∧
        (entry.d_name.len = entry.d_name.name.length →
          r.arg = InArg.bytes (entry.d_name.name ++ [0]))) := by
    intro op
    refine ⟨fun _ => ⟨_, rfl, rfl, rfl, rfl, fun h => ?_⟩, fun h => absurd trivial h⟩
    simp only [nameArg, h]
    rw [List.take_of_length_le (by simp)]
  refine ⟨?_, hmknod rdev, hmknod 0, ?_, ?_, hremove _, hremove _, ?_, ?_, ?_, ?_, ?_⟩
  · refine ⟨fun _ => ⟨
      { opcode := fuse_opcode.FUSE_LOOKUP, ino := dir.i_ino,
        argsize := entry.d_name.len + 1, arg := nameArg entry.d_name,
        out_argsize := abi.sizeof_lookup_out }, ?_, rfl, rfl⟩, fun h => absurd trivial h⟩
    simp only [fuse_lookup]
    by_cases h0 : outl.error = 0
    · rw [if_pos h0]
      cases hget : iget (request_send w _) outl.arg.ino alloc_ok <;> rfl
    · rw [if_neg h0]
      by_cases h1 : outl.error ≠ -ENOENT
      · rw [if_pos h1]; rfl
      · rw [if_neg h1]; rfl
  · cases kmalloc_ok with
    | false => exact ⟨fun h => absurd h (by decide), fun _ => rfl⟩
    | true => exact ⟨fun _ => ⟨_, rfl, rfl, rfl⟩, fun h => absurd rfl h⟩
  · cases kmalloc_ok with
    | false => exact ⟨fun h => absurd h (by decide), fun _ => rfl⟩
    | true => exact ⟨fun _ => ⟨_, rfl, rfl, rfl⟩, fun h => absurd rfl h⟩
  · cases kmalloc_ok with
    | false => exact ⟨fun h => absurd h (by decide), fun _ => rfl⟩
    | true => exact ⟨fun _ => ⟨_, rfl, rfl, rfl⟩, fun h => absurd rfl h⟩
  · cases kmalloc_ok with
    | false => exact ⟨fun h => absurd h (by decide), fun _ => rfl⟩
    | true => exact ⟨fun _ => ⟨_, rfl, rfl, rfl, _, rfl⟩, fun h => absurd rfl h⟩
  · cases page with
    | none => exact ⟨fun h => absurd rfl h, fun _ => rfl⟩
    | some p =>
      refine ⟨fun _ => ⟨
        { opcode := fuse_opcode.FUSE_READLINK, ino := inode.i_ino,
          out_argsize := PAGE_SIZE - 1, out_argvar := 1 }, ?_, rfl, rfl, rfl, rfl⟩,
        fun h => absurd (Option.some_ne_none p) h⟩
      simp only [read_link]
      by_cases he : outr.error ≠ 0
      · rw [if_pos he]; rfl
      · rw [if_neg he]; rfl
  · refine ⟨fun hflag => ⟨
      { opcode := fuse_opcode.FUSE_GETDIR, ino := inode.i_ino,
        out_argsize := abi.sizeof_getdir_out }, ?_, rfl, rfl, rfl, rfl⟩, fun hflag => ?_⟩
    · simp only [fuse_dir_open, if_neg hflag]
      by_cases he : outd.error = 0
      · rw [if_pos he]
        cases hfile : outd.arg.file with
        | none => rfl
        | some cfile =>
          simp only []
          by_cases hreg : S_ISREG cfile.i_mode
          · rw [if_neg (not_not.mpr hreg)]; rfl
          · rw [if_pos hreg]; rfl
      · rw [if_neg he]; rfl
    · simp only [fuse_dir_open, if_pos (not_not.mp hflag)]
  · refine ⟨fun hroot => ⟨
      { opcode := fuse_opcode.FUSE_GETATTR, ino := inode.i_ino,
        out_argsize := abi.sizeof_getattr_out }, ?_, rfl, rfl, rfl, rfl⟩, fun hroot => ?_⟩
    · simp only [fuse_revalidate, if_neg (not_not.mpr hroot)]
      by_cases he : outg.error = 0
      · rw [if_pos he]; rfl
      · rw [if_neg he]; rfl
    · simp only [fuse_revalidate, if_pos hroot]

/-- C16 at concrete inputs: unlinking "a" in directory 1 sends one
`FUSE_UNLINK` request on id 1 with the body "a" and a NUL; linking inode 42
into directory 1 sends one `FUSE_LINK` request on id 42 with the id 1 in the
body; revalidating inode 42, which is not the root, sends nothing. -/
theorem one_request_per_call_witness :
    (∃ r, (fuse_unlink emptyWorld (new_inode 1) (freshDentry [97])
        { error := 0, arg := () }).2.sent = emptyWorld.sent ++ [r] ∧
      r.opcode = fuse_opcode.FUSE_UNLINK ∧ r.ino = 1 ∧ r.argsize = 2 ∧
      r.arg = InArg.bytes [97, 0]) ∧
    (∃ r, (fuse_link sampleAbi emptyWorld (new_inode 42) (new_inode 1) (freshDentry [98]) true
        { error := 0, arg := () }).2.sent = emptyWorld.sent ++ [r] ∧
      r.opcode = fuse_opcode.FUSE_LINK ∧ r.ino = 42 ∧
      ∃ name, r.arg = InArg.link_in 1 name) ∧
    (fuse_revalidate sampleAbi emptyWorld (new_inode 42)
      { error := 0, arg := { attr := sampleAttr 0o040755 } }).2.2.sent = emptyWorld.sent :=
  have h := one_request_per_call sampleAbi emptyWorld (new_inode 1) (new_inode 1)
    (new_inode 42) (freshDentry [97]) (freshDentry [98]) 0o100644 0 [98]
    { f_flags := 0, f_pos := 0, private_data := none } true true none
    { error := 0, arg := { ino := 42, attr := sampleAttr 0o100644 } }
    { error := 0, arg := { ino := 42, attr := sampleAttr 0o100644 } }
    { error := 0, arg := () }
    { error := 0, arg := { attr := sampleAttr 0o040755 } }
    { error := 0, arg := [98] }
    { error := 0, arg := { file := none } }
  ⟨(h.2.2.2.2.2.1.1 trivial).elim fun r hr => ⟨r, hr.1, hr.2.1, hr.2.2.1, hr.2.2.2.1,
      hr.2.2.2.2 rfl⟩,
   h.2.2.2.2.2.2.2.2.1.1 rfl,
   h.2.2.2.2.2.2.2.2.2.2.2.2 (by decide)⟩

theorem fuse_lookup_steps (abi : FuseAbi) (w : World) (dir : Inode) (entry : Dentry)
    (out : Reply fuse_lookup_out) (alloc_ok : Bool) (inode : Inode)
    (h0 : out.error = 0) (hget : iget w out.arg.ino alloc_ok = some inode) :
    (fuse_lookup abi w dir entry out alloc_ok).1 = DentryResult.null ∧
    (fuse_lookup abi w dir entry out alloc_ok).2.1.d_inode = some out.arg.ino ∧
    (fuse_lookup abi w dir entry out alloc_ok).2.2.inodes out.arg.ino =
      some (fuse_init_inode inode out.arg.attr) := by
  simp only [fuse_lookup, if_pos h0, iget_request_send, hget]
  simp [d_add, d_instantiate, World.store]

/-- C17: creation and lookup agree.  When `FUSE_MKNOD` is answered with status
0, an id and an attribute record, and an inode is obtained for the id,
`fuse_mknod` returns 0 with the entry bound to the inode of that id; when a
later `FUSE_LOOKUP` is answered with status 0 and the same id and record,
`fuse_lookup` binds its entry to the inode of the same id, and the attributes
and the `i_op` and `i_fop` of that inode are those it had after the creation. -/
theorem create_then_lookup_agree (abi : FuseAbi) (w : World) (dir : Inode)
    (entry entry2 : Dentry) (mode rdev : Int) (ino : Nat) (attr : fuse_attr)
    (alloc_ok alloc_ok2 : Bool) (i0 : Inode) (hget : iget w ino alloc_ok = some i0) :
    (fuse_mknod abi w dir entry mode rdev true
        { error := 0, arg := { ino := ino, attr := attr } } alloc_ok).1 = 0 ∧
    (fuse_mknod abi w dir entry mode rdev true
        { error := 0, arg := { ino := ino, attr := attr } } alloc_ok).2.1 =
      { entry with d_inode := some ino } ∧
    (fuse_mknod abi w dir entry mode rdev true
        { error := 0, arg := { ino := ino, attr := attr } } alloc_ok).2.2.inodes ino =
      some (fuse_init_inode i0 attr) ∧
    (fuse_lookup abi
        (fuse_mknod abi w dir entry mode rdev true
          { error := 0, arg := { ino := ino, attr := attr } } alloc_ok).2.2
        dir entry2 { error := 0, arg := { ino := ino, attr := attr } } alloc_ok2).1 =
      DentryResult.null ∧
    (fuse_lookup abi
        (fuse_mknod abi w dir entry mode rdev true
          { error := 0, arg := { ino := ino, attr := attr } } alloc_ok).2.2
        dir entry2 { error := 0, arg := { ino := ino, attr := attr } } alloc_ok2).2.1.d_inode =
      some ino ∧
    ∃ i2, (fuse_lookup abi
        (fuse_mknod abi w dir entry mode rdev true
          { error := 0, arg := { ino := ino, attr := attr } } alloc_ok).2.2
        dir entry2 { error := 0, arg := { ino := ino, attr := attr } } alloc_ok2).2.2.inodes ino =
        some i2 ∧
      { i2 with special_inits := (fuse_init_inode i0 attr).special_inits } =
        fuse_init_inode i0 attr := by
  have hm : fuse_mknod abi w dir entry mode rdev true
      { error := 0, arg := { ino := ino, attr := attr } } alloc_ok =
      (0, d_instantiate entry (some ino),
        (request_send w
          { opcode := fuse_opcode.FUSE_MKNOD, ino := dir.i_ino,
            argsize := abi.offsetof_mknod_name + entry.d_name.len + 1,
            arg := InArg.mknod_in mode rdev
              (strcpy (kmalloc (abi.offsetof_mknod_name + entry.d_name.len + 1 -
                abi.offsetof_mknod_name)) 0 entry.d_name.name),
            out_argsize := abi.sizeof_mknod_out }).store ino (fuse_init_inode i0 attr)) := by
    simp only [fuse_mknod, Bool.not_true, Bool.false_eq_true, if_false, ne_eq,
      not_true_eq_false, iget_request_send, hget]
  rw [hm]
  have hget2 : ∀ v : World, iget (v.store ino (fuse_init_inode i0 attr)) ino alloc_ok2 =
      some (fuse_init_inode i0 attr) := by
    intro v; simp [iget, World.store]
  have hl := fuse_lookup_steps abi
    ((request_send w
      { opcode := fuse_opcode.FUSE_MKNOD, ino := dir.i_ino,
        argsize := abi.offsetof_mknod_name + entry.d_name.len + 1,
        arg := InArg.mknod_in mode rdev
          (strcpy (kmalloc (abi.offsetof_mknod_name + entry.d_name.len + 1 -
            abi.offsetof_mknod_name)) 0 entry.d_name.name),
        out_argsize := abi.sizeof_mknod_out }).store ino (fuse_init_inode i0 attr))
    dir entry2 { error := 0, arg := { ino := ino, attr := attr } } alloc_ok2
    (fuse_init_inode i0 attr) rfl (hget2 _)
  refine ⟨rfl, rfl, by simp [World.store], hl.1, hl.2.1, _, hl.2.2, ?_⟩
  exact fuse_init_inode_twice i0 attr

/-- C17 at a concrete input: creating "a" in directory 1 is answered with id
42 and the attributes of a regular file with mode 0644; the lookup that
follows gets the same answer. -/
theorem create_then_lookup_agree_witness :
    (fuse_mknod sampleAbi emptyWorld (new_inode 1) (freshDentry [97]) 0o100644 0 true
        { error := 0, arg := { ino := 42, attr := sampleAttr 0o100644 } } true).1 = 0 ∧
    (fuse_mknod sampleAbi emptyWorld (new_inode 1) (freshDentry [97]) 0o100644 0 true
        { error := 0, arg := { ino := 42, attr := sampleAttr 0o100644 } } true).2.1 =
      { freshDentry [97] with d_inode := some 42 } ∧
    (fuse_mknod sampleAbi emptyWorld (new_inode 1) (freshDentry [97]) 0o100644 0 true
        { error := 0, arg := { ino := 42, attr := sampleAttr 0o100644 } } true).2.2.inodes 42 =
      some (fuse_init_inode (new_inode 42) (sampleAttr 0o100644)) ∧
    (fuse_lookup sampleAbi
        (fuse_mknod sampleAbi emptyWorld (new_inode 1) (freshDentry [97]) 0o100644 0 true
          { error := 0, arg := { ino := 42, attr := sampleAttr 0o100644 } } true).2.2
        (new_inode 1) (freshDentry [97])
        { error := 0, arg := { ino := 42, attr := sampleAttr 0o100644 } } false).1 =
      DentryResult.null ∧
    (fuse_lookup sampleAbi
        (fuse_mknod sampleAbi emptyWorld (new_inode 1) (freshDentry [97]) 0o100644 0 true
          { error := 0, arg := { ino := 42, attr := sampleAttr 0o100644 } } true).2.2
        (new_inode 1) (freshDentry [97])
        { error := 0, arg := { ino := 42, attr := sampleAttr 0o100644 } } false).2.1.d_inode =
      some 42 ∧
    ∃ i2, (fuse_lookup sampleAbi
        (fuse_mknod sampleAbi emptyWorld (new_inode 1) (freshDentry [97]) 0o100644 0 true
          { error := 0, arg := { ino := 42, attr := sampleAttr 0o100644 } } true).2.2
        (new_inode 1) (freshDentry [97])
        { error := 0, arg := { ino := 42, attr := sampleAttr 0o100644 } } false).2.2.inodes 42 =
        some i2 ∧
      { i2 with
          special_inits :=
            (fuse_init_inode (new_inode 42) (sampleAttr 0o100644)).special_inits } =
        fuse_init_inode (new_inode 42) (sampleAttr 0o100644) :=
  create_then_lookup_agree sampleAbi emptyWorld (new_inode 1) (freshDentry [97])
    (freshDentry [97]) 0o100644 0 42 (sampleAttr 0o100644) true false (new_inode 42) rfl

/-- C18: the reply record is not read on failure.  For the same non-zero
status and two different reply records, `fuse_lookup`, `fuse_mknod`,
`fuse_revalidate` and `fuse_dir_open` give the same return value, the same
entry, inode and file, and the same kernel state. -/
theorem reply_body_ignored_on_failure (abi : FuseAbi) (w : World) (dir inode : Inode)
    (entry : Dentry) (mode rdev : Int) (file : File) (kmalloc_ok alloc_ok : Bool) (e : Int)
    (he : e ≠ 0) (l1 l2 : fuse_lookup_out) (m1 m2 : fuse_mknod_out)
    (g1 g2 : fuse_getattr_out) (d1 d2 : fuse_getdir_out) :
    fuse_lookup abi w dir entry { error := e, arg := l1 } alloc_ok =
      fuse_lookup abi w dir entry { error := e, arg := l2 } alloc_ok ∧
    fuse_mknod abi w dir entry mode rdev kmalloc_ok { error := e, arg := m1 } alloc_ok =
      fuse_mknod abi w dir entry mode rdev kmalloc_ok { error := e, arg := m2 } alloc_ok ∧
    fuse_revalidate abi w inode { error := e, arg := g1 } =
      fuse_revalidate abi w inode { error := e, arg := g2 } ∧
    fuse_dir_open abi w inode file { error := e, arg := d1 } =
      fuse_dir_open abi w inode file { error := e, arg := d2 } := by
  refine ⟨?_, ?_, ?_, ?_⟩
  · simp only [fuse_lookup, if_neg he]
  · simp only [fuse_mknod, ne_eq, he, not_false_eq_true, if_true]
  · simp only [fuse_revalidate, if_neg he]
  · simp only [fuse_dir_open, if_neg he]

/-- C18 at a concrete input: the status `-5` with the reply records of a
regular file 42 and of a directory 43. -/
theorem reply_body_ignored_on_failure_witness :
    fuse_lookup sampleAbi emptyWorld (new_inode 1) (freshDentry [97])
        { error := -5, arg := { ino := 42, attr := sampleAttr 0o100644 } } true =
      fuse_lookup sampleAbi emptyWorld (new_inode 1) (freshDentry [97])
        { error := -5, arg := { ino := 43, attr := sampleAttr 0o040755 } } true ∧
    fuse_mknod sampleAbi emptyWorld (new_inode 1) (freshDentry [97]) 0o100644 0 true
        { error := -5, arg := { ino := 42, attr := sampleAttr 0o100644 } } true =
      fuse_mknod sampleAbi emptyWorld (new_inode 1) (freshDentry [97]) 0o100644 0 true
        { error := -5, arg := { ino := 43, attr := sampleAttr 0o040755 } } true ∧
    fuse_revalidate sampleAbi emptyWorld (new_inode 1)
        { error := -5, arg := { attr := sampleAttr 0o100644 } } =
      fuse_revalidate sampleAbi emptyWorld (new_inode 1)
        { error := -5, arg := { attr := sampleAttr 0o040755 } } ∧
    fuse_dir_open sampleAbi emptyWorld (new_inode 1)
        { f_flags := O_DIRECTORY, f_pos := 0, private_data := none }
        { error := -5, arg := { file := some { i_mode := 0o100644, data := [] } } } =
      fuse_dir_open sampleAbi emptyWorld (new_inode 1)
        { f_flags := O_DIRECTORY, f_pos := 0, private_data := none }
        { error := -5, arg := { file := none } } :=
  reply_body_ignored_on_failure sampleAbi emptyWorld (new_inode 1) (new_inode 1)
    (freshDentry [97]) 0o100644 0 { f_flags := O_DIRECTORY, f_pos := 0, private_data := none }
    true true (-5) (by decide)
    { ino := 42, attr := sampleAttr 0o100644 } { ino := 43, attr := sampleAttr 0o040755 }
    { ino := 42, attr := sampleAttr 0o100644 } { ino := 43, attr := sampleAttr 0o040755 }
    { attr := sampleAttr 0o100644 } { attr := sampleAttr 0o040755 }
    { file := some { i_mode := 0o100644, data := [] } } { file := none }

/-! ## Reading a link -/

theorem read_link_buffer (w : World) (inode : Inode) (page : List Nat)
    (out : Reply (List Nat)) (h0 : out.error = 0) :
    read_link w inode (some page) out =
      (0, some (out.arg ++ [0] ++ page.drop (out.arg.length + 1)),
        request_send w
          { opcode := fuse_opcode.FUSE_READLINK, ino := inode.i_ino,
            out_argsize := PAGE_SIZE - 1, out_argvar := 1 }) := by
  have hne : ¬ (out.error ≠ 0) := not_not.mpr h0
  simp only [read_link, if_neg hne]
  have h1 : (out.arg ++ List.drop out.arg.length page).take out.arg.length = out.arg :=
    List.take_left' rfl
  have h2 : (out.arg ++ List.drop out.arg.length page).drop (out.arg.length + 1) =
      page.drop (out.arg.length + 1) := by
    rw [← List.drop_drop, List.drop_left' rfl, List.drop_drop]
  rw [h1, h2]

/-- C19: `read_link` asks for a variable-size reply of at most `PAGE_SIZE - 1`
bytes.  Whatever the page holds when it is allocated, for a reply with status
0 whose size `n` is at most that capacity the returned buffer is one page
long, `n < PAGE_SIZE`, its first `n` bytes are the reply bytes, the byte at
index `n` is the NUL written by `read_link`, and the bytes behind it are those
the page held; so the string in the buffer is the link target.  With a
non-zero status no buffer is returned and the status is the result. -/
theorem read_link_terminates_in_page (w : World) (inode : Inode) (page : List Nat)
    (out : Reply (List Nat)) (hpage : page.length = PAGE_SIZE) :
    (read_link w inode (some page) out).2.2.sent =
      w.sent ++ [{ opcode := fuse_opcode.FUSE_READLINK, ino := inode.i_ino, argsize := 0,
                   arg := InArg.null, out_argsize := PAGE_SIZE - 1, out_argvar := 1 }] ∧
    (out.error = 0 → out.arg.length ≤ PAGE_SIZE - 1 →
      (read_link w inode (some page) out).1 = 0 ∧
      ∃ buf, (read_link w inode (some page) out).2.1 = some buf ∧
        buf.length = PAGE_SIZE ∧ out.arg.length < PAGE_SIZE ∧
        buf.take out.arg.length = out.arg ∧ buf[out.arg.length]? = some 0 ∧
        buf.drop (out.arg.length + 1) = page.drop (out.arg.length + 1) ∧
        (NulFree out.arg → cstring buf = out.arg)) ∧
    (out.error ≠ 0 →
      (read_link w inode (some page) out).1 = out.error ∧
      (read_link w inode (some page) out).2.1 = none) := by
  have hP : PAGE_SIZE = 4096 := rfl
  refine ⟨?_, ?_, ?_⟩
  · simp only [read_link]
    by_cases he : out.error ≠ 0
    · rw [if_pos he]; rfl
    · rw [if_neg he]; rfl
  · intro h0 hn
    rw [read_link_buffer w inode page out h0]
    refine ⟨rfl, _, rfl, ?_, by omega, ?_, ?_, ?_, ?_⟩
    · simp only [List.length_append, List.length_cons, List.length_nil, List.length_drop]
      omega
    · rw [List.append_assoc, List.take_left' rfl]
    · rw [List.append_assoc, List.getElem?_append_right (le_refl _)]
      simp
    · rw [List.drop_left' (by simp)]
    · intro hfree
      rw [List.append_assoc]
      exact cstring_append_nul out.arg _ hfree
  · intro he
    simp only [read_link, if_pos he]
    exact ⟨trivial, trivial⟩

/-- C19 at a concrete input: a page that holds the byte 170 everywhere when it
is allocated, with the two-byte target "bc" and with the status `-5`. -/
theorem read_link_terminates_in_page_witness :
    ((read_link emptyWorld (new_inode 42) (some (List.replicate PAGE_SIZE 170))
        { error := 0, arg := [98, 99] }).1 = 0 ∧
      ∃ buf, (read_link emptyWorld (new_inode 42) (some (List.replicate PAGE_SIZE 170))
          { error := 0, arg := [98, 99] }).2.1 = some buf ∧
        buf.length = PAGE_SIZE ∧ 2 < PAGE_SIZE ∧
        buf.take 2 = [98, 99] ∧ buf[2]? = some 0 ∧
        buf.drop 3 = (List.replicate PAGE_SIZE 170).drop 3 ∧
        (NulFree [98, 99] → cstring buf = [98, 99])) ∧
    ((read_link emptyWorld (new_inode 42) (some (List.replicate PAGE_SIZE 170))
        { error := -5, arg := [98, 99] }).1 = -5 ∧
      (read_link emptyWorld (new_inode 42) (some (List.replicate PAGE_SIZE 170))
        { error := -5, arg := [98, 99] }).2.1 = none) :=
  ⟨(read_link_terminates_in_page emptyWorld (new_inode 42) (List.replicate PAGE_SIZE 170)
      { error := 0, arg := [98, 99] } (List.length_replicate _ _)).2.1 rfl (by decide),
   (read_link_terminates_in_page emptyWorld (new_inode 42) (List.replicate PAGE_SIZE 170)
      { error := -5, arg := [98, 99] } (List.length_replicate _ _)).2.2 (by decide)⟩

/-! ## Bounds of the directory stream parser -/

theorem accessesWithin_nil (L : DirentLayout) (bound : Nat) : AccessesWithin L bound [] := by
  intro a ha; cases ha

theorem accessesWithin_cons (L : DirentLayout) (bound : Nat) (a : Access) (log : List Access)
    (ha : match a with
      | Access.header off => off + L.FUSE_NAME_OFFSET ≤ bound
      | Access.name off len => off + len ≤ bound
      | Access.advance nbytes reclen => reclen ≤ nbytes)
    (hlog : AccessesWithin L bound log) : AccessesWithin L bound (a :: log) := by
  intro b hb
  rcases List.mem_cons.1 hb with h | h
  · rw [h]; exact ha
  · exact hlog b h

/-- The log of the loop: its result is that of `parse_dirfile`, every access
stays inside the `nbytes` bytes that follow `off`, and the position advances
by the sum of the subtracted record lengths, which is at most `nbytes`. -/
theorem log_invariant {σ : Type} (L : DirentLayout)
    (hsize : ∀ d, L.FUSE_NAME_OFFSET + d.namelen ≤ L.FUSE_DIRENT_SIZE d)
    (filldir : Filldir σ) :
    ∀ (fuel off : Nat) (buf : List Nat) (nbytes : Nat) (file : DirFile σ),
      (parse_dirfile_log L filldir fuel off buf nbytes file).2 =
        parse_dirfile L filldir fuel buf nbytes file ∧
      AccessesWithin L (off + nbytes) (parse_dirfile_log L filldir fuel off buf nbytes file).1 ∧
      (advances (parse_dirfile_log L filldir fuel off buf nbytes file).1).sum ≤ nbytes ∧
      ∀ ret st, (parse_dirfile_log L filldir fuel off buf nbytes file).2 = some (ret, st) →
        st.f_pos = file.f_pos +
          (advances (parse_dirfile_log L filldir fuel off buf nbytes file).1).sum := by
  intro fuel
  induction fuel with
  | zero =>
    intro off buf nbytes file
    refine ⟨rfl, accessesWithin_nil L _, Nat.zero_le _, ?_⟩
    intro ret st h
    simp [parse_dirfile_log] at h
  | succ fuel ih =>
    intro off buf nbytes file
    rw [parse_dirfile_log, parse_dirfile]
    by_cases hhead : nbytes ≥ L.FUSE_NAME_OFFSET
    · rw [if_pos hhead, if_pos hhead]
      by_cases hbig : (L.header (buf.take L.FUSE_NAME_OFFSET)).namelen > NAME_MAX
      · simp only [hbig, if_true]
        refine ⟨trivial, accessesWithin_cons L _ _ _ (by show off + _ ≤ _; omega)
          (accessesWithin_nil L _), by simp [advances], ?_⟩
        intro ret st h
        simp only [Option.some.injEq, Prod.mk.injEq] at h
        rw [← h.2]; simp [advances]
      · simp only [hbig, if_false]
        by_cases hcut : L.FUSE_DIRENT_SIZE (L.header (buf.take L.FUSE_NAME_OFFSET)) > nbytes
        · simp only [hcut, if_true]
          refine ⟨trivial, accessesWithin_cons L _ _ _ (by show off + _ ≤ _; omega)
            (accessesWithin_nil L _), by simp [advances], ?_⟩
          intro ret st h
          simp only [Option.some.injEq, Prod.mk.injEq] at h
          rw [← h.2]; simp [advances]
        · simp only [hcut, if_false]
          have hs := hsize (L.header (buf.take L.FUSE_NAME_OFFSET))
          by_cases hover : (filldir file.dstbuf (direntArgs L buf file.f_pos)).2 ≠ 0
          · rw [if_pos hover, if_pos hover]
            refine ⟨rfl, accessesWithin_cons L _ _ _ (by show off + _ ≤ _; omega)
              (accessesWithin_cons L _ _ _ (by show off + _ + _ ≤ _; omega)
                (accessesWithin_nil L _)), by simp [advances], ?_⟩
            intro ret st h
            simp only [Option.some.injEq, Prod.mk.injEq] at h
            rw [← h.2]; simp [advances]
          · rw [if_neg hover, if_neg hover]
            obtain ⟨h1, h2, h3, h4⟩ := ih
              (off + L.FUSE_DIRENT_SIZE (L.header (buf.take L.FUSE_NAME_OFFSET)))
              (buf.drop (L.FUSE_DIRENT_SIZE (L.header (buf.take L.FUSE_NAME_OFFSET))))
              (nbytes - L.FUSE_DIRENT_SIZE (L.header (buf.take L.FUSE_NAME_OFFSET)))
              { f_pos := file.f_pos +
                  L.FUSE_DIRENT_SIZE (L.header (buf.take L.FUSE_NAME_OFFSET)),
                dstbuf := (filldir file.dstbuf (direntArgs L buf file.f_pos)).1,
                calls := file.calls ++ [direntArgs L buf file.f_pos] }
            have hb : off + L.FUSE_DIRENT_SIZE (L.header (buf.take L.FUSE_NAME_OFFSET)) +
                (nbytes - L.FUSE_DIRENT_SIZE (L.header (buf.take L.FUSE_NAME_OFFSET))) =
                off + nbytes := by omega
            rw [hb] at h2
            refine ⟨h1, accessesWithin_cons L _ _ _ (by show off + _ ≤ _; omega)
              (accessesWithin_cons L _ _ _ (by show off + _ + _ ≤ _; omega)
                (accessesWithin_cons L _ _ _ (by show _ ≤ nbytes; omega) h2)), ?_, ?_⟩
            · simp only [advances, List.sum_cons]
              omega
            · intro ret st h
              have h5 := h4 ret st h
              dsimp only at h5
              simp only [advances, List.sum_cons]
              omega
    · rw [if_neg hhead, if_neg hhead]
      refine ⟨rfl, accessesWithin_nil L _, by simp [advances], ?_⟩
      intro ret st h
      simp only [Option.some.injEq, Prod.mk.injEq] at h
      rw [← h.2]; simp [advances]

/-- With a regular layout the loop ends within `nbytes + 1` iterations. -/
theorem parse_dirfile_returns {σ : Type} (L : DirentLayout) (hL : L.Regular)
    (filldir : Filldir σ) :
    ∀ (fuel : Nat) (buf : List Nat) (nbytes : Nat) (file : DirFile σ), nbytes < fuel →
      (parse_dirfile L filldir fuel buf nbytes file).isSome = true := by
  intro fuel
  induction fuel with
  | zero => intro buf nbytes file h; omega
  | succ fuel ih =>
    intro buf nbytes file h
    rw [parse_dirfile]
    by_cases hhead : nbytes ≥ L.FUSE_NAME_OFFSET
    · rw [if_pos hhead]
      by_cases hbig : (L.header (buf.take L.FUSE_NAME_OFFSET)).namelen > NAME_MAX
      · simp only [hbig, if_true, Option.isSome_some]
      · simp only [hbig, if_false]
        by_cases hcut : L.FUSE_DIRENT_SIZE (L.header (buf.take L.FUSE_NAME_OFFSET)) > nbytes
        · simp only [hcut, if_true, Option.isSome_some]
        · simp only [hcut, if_false]
          by_cases hover : (filldir file.dstbuf (direntArgs L buf file.f_pos)).2 ≠ 0
          · rw [if_pos hover]; rfl
          · rw [if_neg hover]
            have hs := hL.2 (L.header (buf.take L.FUSE_NAME_OFFSET))
            have hp := hL.1
            exact ih _ _ _ (by omega)
    · rw [if_neg hhead]; rfl

/-- C20: `parse_dirfile` never reads or consumes past its input.  For every
buffer, length `nbytes`, callback and number of iterations, every record
header it inspects and every name it hands to the callback lies inside the
first `nbytes` bytes, every `nbytes -= reclen` subtracts at most what is left,
and when the call returns `f_pos` has advanced by the sum of the lengths of the
records consumed, which is at most `nbytes`; the call returns within
`nbytes + 1` iterations. -/
theorem parse_dirfile_stays_in_bounds {σ : Type} (L : DirentLayout) (hL : L.Regular)
    (filldir : Filldir σ) (fuel : Nat) (buf : List Nat) (nbytes : Nat) (file : DirFile σ) :
    (parse_dirfile_log L filldir fuel 0 buf nbytes file).2 =
      parse_dirfile L filldir fuel buf nbytes file ∧
    AccessesWithin L nbytes (parse_dirfile_log L filldir fuel 0 buf nbytes file).1 ∧
    (advances (parse_dirfile_log L filldir fuel 0 buf nbytes file).1).sum ≤ nbytes ∧
    (∀ ret st, parse_dirfile L filldir fuel buf nbytes file = some (ret, st) →
      st.f_pos = file.f_pos +
        (advances (parse_dirfile_log L filldir fuel 0 buf nbytes file).1).sum ∧
      st.f_pos - file.f_pos ≤ nbytes) ∧
    (nbytes < fuel → (parse_dirfile L filldir fuel buf nbytes file).isSome = true) := by
  obtain ⟨h1, h2, h3, h4⟩ := log_invariant L hL.2 filldir fuel 0 buf nbytes file
  rw [Nat.zero_add] at h2
  refine ⟨h1, h2, h3, ?_, parse_dirfile_returns L hL filldir fuel buf nbytes file⟩
  intro ret st h
  have h5 := h4 ret st (h1.trans h)
  exact ⟨h5, by omega⟩

/-- C20 at a concrete input: two 16-byte records and 12 bytes of a third, with
`nbytes = 44`. -/
theorem parse_dirfile_stays_in_bounds_witness :
    (parse_dirfile_log (sampleLayout 8) collectAll 45 0
        (stream [sampleRecord 8 7 8 [120], sampleRecord 8 9 4 [121, 121]] ++
          (sampleRecord 8 257 10 [122, 122, 122]).take 12) 44 ⟨100, [], []⟩).2 =
      parse_dirfile (sampleLayout 8) collectAll 45
        (stream [sampleRecord 8 7 8 [120], sampleRecord 8 9 4 [121, 121]] ++
          (sampleRecord 8 257 10 [122, 122, 122]).take 12) 44 ⟨100, [], []⟩ ∧
    AccessesWithin (sampleLayout 8) 44
      (parse_dirfile_log (sampleLayout 8) collectAll 45 0
        (stream [sampleRecord 8 7 8 [120], sampleRecord 8 9 4 [121, 121]] ++
          (sampleRecord 8 257 10 [122, 122, 122]).take 12) 44 ⟨100, [], []⟩).1 ∧
    (advances (parse_dirfile_log (sampleLayout 8) collectAll 45 0
        (stream [sampleRecord 8 7 8 [120], sampleRecord 8 9 4 [121, 121]] ++
          (sampleRecord 8 257 10 [122, 122, 122]).take 12) 44 ⟨100, [], []⟩).1).sum ≤ 44 ∧
    (∀ ret st, parse_dirfile (sampleLayout 8) collectAll 45
        (stream [sampleRecord 8 7 8 [120], sampleRecord 8 9 4 [121, 121]] ++
          (sampleRecord 8 257 10 [122, 122, 122]).take 12) 44 ⟨100, [], []⟩ = some (ret, st) →
      st.f_pos = 100 +
        (advances (parse_dirfile_log (sampleLayout 8) collectAll 45 0
          (stream [sampleRecord 8 7 8 [120], sampleRecord 8 9 4 [121, 121]] ++
            (sampleRecord 8 257 10 [122, 122, 122]).take 12) 44 ⟨100, [], []⟩).1).sum ∧
      st.f_pos - 100 ≤ 44) ∧
    ((44 : Nat) < 45 → (parse_dirfile (sampleLayout 8) collectAll 45
        (stream [sampleRecord 8 7 8 [120], sampleRecord 8 9 4 [121, 121]] ++
          (sampleRecord 8 257 10 [122, 122, 122]).take 12) 44 ⟨100, [], []⟩).isSome = true) :=
  parse_dirfile_stays_in_bounds (sampleLayout 8) (sampleLayout_regular 8 (by decide))
    collectAll 45
    (stream [sampleRecord 8 7 8 [120], sampleRecord 8 9 4 [121, 121]] ++
      (sampleRecord 8 257 10 [122, 122, 122]).take 12) 44 ⟨100, [], []⟩

/-- The log of the concrete run of the C20 example. -/
theorem parse_dirfile_log_example :
    (parse_dirfile_log (sampleLayout 8) collectAll 45 0
        (stream [sampleRecord 8 7 8 [120], sampleRecord 8 9 4 [121, 121]] ++
          (sampleRecord 8 257 10 [122, 122, 122]).take 12) 44 ⟨100, [], []⟩).1 =
      [Access.header 0, Access.name 11 1, Access.advance 44 16,
       Access.header 16, Access.name 27 2, Access.advance 28 16,
       Access.header 32] := by
  decide

end Fuse
